import Mathlib

/-!
# Breakout: game-state machine and physics tick

A shallow embedding of `breakout.c`: the global game state, `initializeGame`,
`checkCollision`, `handleInput`, `allBricksBroken` and `updateGame`.

Modelling conventions:

* C `float` values are members of an arbitrary linearly ordered field `α`
  (exact arithmetic, no rounding); every definition is computable and can be
  run at `α := ℚ`.
* `int` variables (`lives`, `score`, `consecutiveHits`) are `Int`; `Uint32`
  tick counts are `Nat` and the one `Uint32` subtraction is taken modulo `2^32`.
* The globals become one record `Game α`, passed explicitly.
* Calls into the environment are inputs: the SDL event queue, the keyboard
  snapshot, `SDL_GetTicks()`, the values returned by the calls of
  `randomFloat(-BALL_SPEED, BALL_SPEED)` (computed in binary32 from `rand()`), and
  the `math.h` functions used by the paddle bounce.
* `printf`, texture handles, rendering and sound playback do not influence the
  game state and are left out.
-/

set_option linter.unusedSectionVars false

namespace Breakout

/-! ## Constants -/

abbrev WINDOW_WIDTH : Int := 800
abbrev WINDOW_HEIGHT : Int := 480
abbrev BRICK_WIDTH : Int := 80
abbrev BRICK_HEIGHT : Int := 20
abbrev NUM_BRICK_COLUMNS : Nat := 10
abbrev NUM_BRICK_ROWS : Nat := 5
abbrev PADDLE_WIDTH : Int := 100
abbrev PADDLE_HEIGHT : Int := 20
abbrev BALL_SIZE : Int := 15
abbrev INITIAL_LIVES : Int := 3
abbrev COUNTDOWN_DURATION : Int := 3000

section Model

variable {α : Type} [LinearOrderedField α]

/-- The macro `BALL_SPEED`, `5.0f`. -/
def BALL_SPEED : α := 5

/-! ## Data model -/

/-- The struct `GameObject` (paddle and bricks), without its texture handle. -/
structure GameObject (α : Type) where
  x : α
  y : α
  width : α
  height : α
  active : Bool

/-- The struct `Ball`, without its texture handle. -/
structure Ball (α : Type) where
  x : α
  y : α
  dx : α
  dy : α
  size : α

/-- The global variables of the program that make up the game state. -/
structure Game (α : Type) where
  paddle : GameObject α
  bricks : Fin NUM_BRICK_ROWS → Fin NUM_BRICK_COLUMNS → GameObject α
  ball : Ball α
  gameRunning : Bool
  lives : Int
  gameOver : Bool
  gameWon : Bool
  gameStarted : Bool
  score : Int
  consecutiveHits : Int
  countdownStartTime : Nat
  firstGame : Bool

/-- The functions and the constant of `math.h` that `updateGame` calls. -/
structure Libm (α : Type) where
  sqrt : α → α
  sin : α → α
  cos : α → α
  M_PI : α

/-- One entry of the SDL event queue, as far as `handleInput` tells them apart.
`keySpace ticks` carries the value `SDL_GetTicks()` returns while the key press
is handled. -/
inductive Event where
  | quit
  | keyEscape
  | keySpace (ticks : Nat)
  | other

/-! ## initializeGame, checkCollision -/

/-- The brick written by the body of the initialisation loop at `(row, col)`. -/
def initBrick (row : Fin NUM_BRICK_ROWS) (col : Fin NUM_BRICK_COLUMNS) : GameObject α :=
  { x := (((col.val : Int) * BRICK_WIDTH : Int) : α)
    y := (((row.val : Int) * BRICK_HEIGHT + 50 : Int) : α)
    width := ((BRICK_WIDTH : Int) : α)
    height := ((BRICK_HEIGHT : Int) : α)
    active := true }

/-- The function `initializeGame`; `ticks` is the value of `SDL_GetTicks()`. -/
def initializeGame (ticks : Nat) (g : Game α) : Game α :=
  { g with
    lives := INITIAL_LIVES
    score := 0
    consecutiveHits := 0
    gameOver := false
    gameWon := false
    gameStarted := if g.firstGame then false else true
    countdownStartTime := if g.firstGame then g.countdownStartTime else ticks
    paddle :=
      { g.paddle with
        x := ((WINDOW_WIDTH / 2 - PADDLE_WIDTH / 2 : Int) : α)
        y := ((WINDOW_HEIGHT - 40 : Int) : α)
        width := ((PADDLE_WIDTH : Int) : α)
        height := ((PADDLE_HEIGHT : Int) : α) }
    ball :=
      { x := ((WINDOW_WIDTH / 2 : Int) : α)
        y := ((WINDOW_HEIGHT / 2 : Int) : α)
        dx := 0
        dy := 0
        size := ((BALL_SIZE : Int) : α) }
    bricks := fun row col => initBrick row col }

/-- The function `checkCollision`. -/
def checkCollision (obj : GameObject α) (x y size : α) : Bool :=
  decide (x + size > obj.x) &&
  decide (x - size < obj.x + obj.width) &&
  decide (y + size > obj.y) &&
  decide (y - size < obj.y + obj.height)

/-! ## Binary32 rounding

The definitions above compute in exact arithmetic. Where a claim depends on the
rounding of a single `float` operation, the operation is modelled on `ℚ` with
the result rounded to the nearest binary32 number, ties to even. Overflow to
infinity and NaN are outside the model: the values of the game are far below
the largest finite binary32 number. -/

/-- Rounding to the nearest integer, ties to the even one. -/
def roundEven (t : ℚ) : Int :=
  if 2 * Int.fract t < 1 then ⌊t⌋
  else if 1 < 2 * Int.fract t then ⌊t⌋ + 1
  else if ⌊t⌋ % 2 = 0 then ⌊t⌋ else ⌊t⌋ + 1

/-- The spacing of the binary32 numbers around `x`: `2 ^ (e - 23)` where
`2 ^ e ≤ |x| < 2 ^ (e + 1)`, and `2 ^ (-149)` in the subnormal range. -/
def ulp32 (x : ℚ) : ℚ :=
  (2 : ℚ) ^ (max (Int.log 2 |x|) (-126) - 23)

/-- The binary32 number nearest to `x`, ties to even: the result of a `float`
operation whose exact result is `x`. -/
def round32 (x : ℚ) : ℚ :=
  (roundEven (x / ulp32 x) : ℚ) * ulp32 x

/-- The function `checkCollision` with its four additions and two subtractions
rounded to binary32; the arguments are binary32 numbers. -/
def checkCollision32 (obj : GameObject ℚ) (x y size : ℚ) : Bool :=
  decide (round32 (x + size) > obj.x) &&
  decide (round32 (x - size) < round32 (obj.x + obj.width)) &&
  decide (round32 (y + size) > obj.y) &&
  decide (round32 (y - size) < round32 (obj.y + obj.height))

/-- The function `randomFloat`, `min + (rand() / (float)RAND_MAX) * (max - min)`,
in binary32: `r` is the value returned by `rand()`; both integers are converted
to `float`, and the quotient, the difference, the product and the sum are
rounded. -/
def randomFloat (RAND_MAX : Nat) (r : Nat) (min max : ℚ) : ℚ :=
  round32 (min + round32 (round32 (round32 (r : ℚ) / round32 (RAND_MAX : ℚ)) *
    round32 (max - min)))

/-! ## handleInput -/

/-- The body of the `SDL_PollEvent` loop of `handleInput` for one event. -/
def handleEvent (ev : Event) (g : Game α) : Game α :=
  match ev with
  | Event.quit => { g with gameRunning := false }
  | Event.keyEscape => { g with gameRunning := false }
  | Event.keySpace ticks =>
    if !g.gameStarted then
      { g with gameStarted := true, countdownStartTime := ticks }
    else if g.gameOver || g.gameWon then
      initializeGame ticks { g with firstGame := false }
    else g
  | Event.other => g

/-- The keyboard-state part of `handleInput`: paddle movement by `7.0f`. -/
def movePaddle (left right : Bool) (g : Game α) : Game α :=
  if g.gameStarted && !g.gameOver && !g.gameWon then
    let paddleSpeed : α := 7
    let g1 : Game α :=
      if left then
        let x1 := g.paddle.x - paddleSpeed
        { g with paddle := { g.paddle with x := if x1 < 0 then 0 else x1 } }
      else g
    if right then
      let x2 := g1.paddle.x + paddleSpeed
      { g1 with paddle :=
          { g1.paddle with
            x := if x2 > ((WINDOW_WIDTH : Int) : α) - g1.paddle.width
                 then ((WINDOW_WIDTH : Int) : α) - g1.paddle.width else x2 } }
    else g1
  else g

/-- The function `handleInput`: `events` is the content of the SDL event queue,
`left` and `right` say whether LEFT or A, respectively RIGHT or D, is held. -/
def handleInput (events : List Event) (left right : Bool) (g : Game α) : Game α :=
  movePaddle left right (events.foldl (fun s ev => handleEvent ev s) g)

/-! ## allBricksBroken -/

/-- The function `allBricksBroken`: the nested scan returns `false` at the first
active brick and `true` when it runs to the end. -/
def allBricksBroken (g : Game α) : Bool :=
  (List.finRange NUM_BRICK_ROWS).all fun row =>
    (List.finRange NUM_BRICK_COLUMNS).all fun col => !(g.bricks row col).active

/-! ## updateGame -/

/-- The guard that appears twice in `updateGame` after a random draw: a
horizontal speed below `BALL_SPEED / 2` is replaced by `BALL_SPEED / 2` with the
sign test `ball.dx > 0`. -/
def ensureHorizontalSpeed (dx : α) : α :=
  if |dx| < BALL_SPEED / 2 then (if dx > 0 then BALL_SPEED / 2 else -BALL_SPEED / 2) else dx

/-- First block of the physics tick: when the velocity is `(0, 0)` it is
initialised from `draw 0`, the value the first call of
`randomFloat(-BALL_SPEED, BALL_SPEED)` returns in this tick. The second
component counts the calls made. -/
def launchStep (draw : Nat → α) (g : Game α) : Game α × Nat :=
  if g.ball.dx = 0 ∧ g.ball.dy = 0 then
    let dx : α := draw 0
    ({ g with ball := { g.ball with dx := ensureHorizontalSpeed dx, dy := -BALL_SPEED } }, 1)
  else (g, 0)

/-- Position update: `ball.x += ball.dx; ball.y += ball.dy`. -/
def moveStep (g : Game α) : Game α :=
  { g with ball := { g.ball with x := g.ball.x + g.ball.dx, y := g.ball.y + g.ball.dy } }

/-- Ball collision with the left, right and top walls, three tests in sequence. -/
def wallStep (g : Game α) : Game α :=
  let b0 := g.ball
  let b1 : Ball α :=
    if b0.x - b0.size < 0 then { b0 with x := b0.size, dx := |b0.dx| } else b0
  let b2 : Ball α :=
    if b1.x + b1.size > ((WINDOW_WIDTH : Int) : α) then
      { b1 with x := ((WINDOW_WIDTH : Int) : α) - b1.size, dx := -|b1.dx| }
    else b1
  let b3 : Ball α :=
    if b2.y - b2.size < 0 then { b2 with y := b2.size, dy := |b2.dy| } else b2
  { g with ball := b3 }

/-- Ball out of bounds at the bottom; `r` is the value the next call of
`randomFloat(-BALL_SPEED, BALL_SPEED)` returns. -/
def missStep (r : α) (g : Game α) : Game α :=
  if g.ball.y + g.ball.size > ((WINDOW_HEIGHT : Int) : α) then
    let lives1 := g.lives - 1
    if lives1 ≤ 0 then
      { g with lives := lives1, gameOver := true }
    else
      let dx : α := r
      { g with
        lives := lives1
        ball :=
          { g.ball with
            x := ((WINDOW_WIDTH / 2 : Int) : α)
            y := ((WINDOW_HEIGHT / 2 : Int) : α)
            dx := ensureHorizontalSpeed dx
            dy := -BALL_SPEED }
        paddle := { g.paddle with x := ((WINDOW_WIDTH / 2 - PADDLE_WIDTH / 2 : Int) : α) } }
  else g

/-- Ball collision with the paddle. -/
def paddleStep (m : Libm α) (g : Game α) : Game α :=
  if checkCollision g.paddle g.ball.x g.ball.y g.ball.size then
    let relativeIntersectX := (g.paddle.x + (g.paddle.width / 2)) - g.ball.x
    let normalizedIntersect := relativeIntersectX / (g.paddle.width / 2)
    let maxAngle := 60 * m.M_PI / 180
    let angle := normalizedIntersect * maxAngle
    let speed := m.sqrt (g.ball.dx * g.ball.dx + g.ball.dy * g.ball.dy)
    { g with
      ball :=
        { g.ball with
          dx := speed * -m.sin angle
          dy := -|speed * m.cos angle|
          y := g.paddle.y - g.ball.size }
      consecutiveHits := 0 }
  else g

/-- The body of the brick loop once brick `(row, col)` is found active and
overlapping the ball. -/
def onBrickHit (row : Fin NUM_BRICK_ROWS) (col : Fin NUM_BRICK_COLUMNS) (g : Game α) : Game α :=
  let b := g.bricks row col
  let brickCenterX := b.x + b.width / 2
  let brickCenterY := b.y + b.height / 2
  let dx := g.ball.x - brickCenterX
  let dy := g.ball.y - brickCenterY
  { g with
    bricks := fun r c => if r = row ∧ c = col then { b with active := false } else g.bricks r c
    score := g.score + (10 + g.consecutiveHits * 5)
    consecutiveHits := g.consecutiveHits + 1
    ball :=
      if |dx| * b.height > |dy| * b.width then { g.ball with dx := -g.ball.dx }
      else { g.ball with dy := -g.ball.dy } }

/-- The inner loop over the columns still to visit in `row`; the flag is the
local `hitBrick` of the source, and a hit ends the loop. -/
def brickColLoop (row : Fin NUM_BRICK_ROWS) :
    List (Fin NUM_BRICK_COLUMNS) → Game α → Game α × Bool
  | [], g => (g, false)
  | col :: rest, g =>
    if (g.bricks row col).active &&
        checkCollision (g.bricks row col) g.ball.x g.ball.y g.ball.size then
      (onBrickHit row col g, true)
    else brickColLoop row rest g

/-- The outer loop over the rows still to visit, left as soon as the flag is set. -/
def brickRowLoop : List (Fin NUM_BRICK_ROWS) → Game α → Game α × Bool
  | [], g => (g, false)
  | row :: rest, g =>
    let res := brickColLoop row (List.finRange NUM_BRICK_COLUMNS) g
    if res.2 then res else brickRowLoop rest res.1

/-- Ball collision with bricks: the scan of the whole grid. -/
def brickStep (g : Game α) : Game α × Bool :=
  brickRowLoop (List.finRange NUM_BRICK_ROWS) g

/-- Check for the win condition. -/
def winStep (g : Game α) : Game α :=
  if allBricksBroken g then { g with gameWon := true } else g

/-- The state in which the bottom test of the tick is made: velocity
initialised if needed, position updated, walls handled. -/
def beforeMiss (draw : Nat → α) (g : Game α) : Game α :=
  wallStep (moveStep (launchStep draw g).1)

/-- The state in which the paddle test of the tick is made. -/
def beforePaddle (draw : Nat → α) (g : Game α) : Game α :=
  missStep (draw (launchStep draw g).2) (beforeMiss draw g)

/-- The state in which the brick scan of the tick is made. -/
def beforeBricks (m : Libm α) (draw : Nat → α) (g : Game α) : Game α :=
  paddleStep m (beforePaddle draw g)

/-- The part of `updateGame` after the two early returns. -/
def physicsTick (m : Libm α) (draw : Nat → α) (g : Game α) : Game α :=
  winStep (brickStep (beforeBricks m draw g)).1

/-- The `Uint32` difference `currentTime - countdownStartTime`. -/
def elapsed (currentTime : Nat) (g : Game α) : Int :=
  ((currentTime : Int) - (g.countdownStartTime : Int)) % 2 ^ 32

/-- The function `updateGame`: `currentTime` is the value of `SDL_GetTicks()`
and `draw k` the value returned by the call number `k` of
`randomFloat(-BALL_SPEED, BALL_SPEED)` in this tick. -/
def updateGame (m : Libm α) (currentTime : Nat) (draw : Nat → α)
    (g : Game α) : Game α :=
  if !g.gameStarted || g.gameOver || g.gameWon then g
  else if elapsed currentTime g < COUNTDOWN_DURATION then g
  else physicsTick m draw g

/-! ## Program start and reachable states -/

/-- The globals as the C initialisers leave them before `main` runs. -/
def startupGlobals : Game α :=
  { paddle := { x := 0, y := 0, width := 0, height := 0, active := false }
    bricks := fun _ _ => { x := 0, y := 0, width := 0, height := 0, active := false }
    ball := { x := 0, y := 0, dx := 0, dy := 0, size := 0 }
    gameRunning := true
    lives := 0
    gameOver := false
    gameWon := false
    gameStarted := false
    score := 0
    consecutiveHits := 0
    countdownStartTime := 0
    firstGame := true }

/-- The state in which `main` enters its loop: `firstGame = true; initializeGame()`. -/
def mainInit : Game α :=
  initializeGame 0 { (startupGlobals : Game α) with firstGame := true }

/-- The states the program can be in: from a state left by `initializeGame`
(`mainInit` is one), any sequence of `handleInput` and `updateGame` calls with
any inputs. -/
inductive Reachable (m : Libm α) : Game α → Prop where
  | init (ticks : Nat) (g0 : Game α) : Reachable m (initializeGame ticks g0)
  | input (events : List Event) (left right : Bool) (g : Game α) :
      Reachable m g → Reachable m (handleInput events left right g)
  | update (currentTime : Nat) (draw : Nat → α) (g : Game α) :
      Reachable m g → Reachable m (updateGame m currentTime draw g)

/-- The conditions under which `updateGame` runs the physics: started, neither
over nor won, countdown elapsed. -/
def Playing (currentTime : Nat) (g : Game α) : Prop :=
  g.gameStarted = true ∧ g.gameOver = false ∧ g.gameWon = false ∧
    ¬ elapsed currentTime g < COUNTDOWN_DURATION

/-! ## Predicates used to state the properties -/

/-- The test of the brick loop at `(row, col)`: the brick is active and
`checkCollision` holds for the ball of `g`. -/
def brickHit (g : Game α) (row : Fin NUM_BRICK_ROWS) (col : Fin NUM_BRICK_COLUMNS) : Bool :=
  (g.bricks row col).active &&
    checkCollision (g.bricks row col) g.ball.x g.ball.y g.ball.size

/-- Brick `(row, col)` passes the test of the brick loop and no brick before it
in row-major order does. -/
def FirstHit (g : Game α) (row : Fin NUM_BRICK_ROWS) (col : Fin NUM_BRICK_COLUMNS) : Prop :=
  brickHit g row col = true ∧
    ∀ r c, (r < row ∨ (r = row ∧ c < col)) → brickHit g r c = false

/-- The fixed layout written by `initializeGame`: paddle row and size, ball
size, and position and size of every brick. -/
def StdGeometry (g : Game α) : Prop :=
  g.paddle.y = 440 ∧ g.paddle.width = 100 ∧ g.paddle.height = 20 ∧ g.ball.size = 15 ∧
    ∀ r c, (g.bricks r c).x = (c.val : α) * 80 ∧ (g.bricks r c).y = (r.val : α) * 20 + 50 ∧
      (g.bricks r c).width = 80 ∧ (g.bricks r c).height = 20

/-- The invariant of the main loop. -/
def Inv (g : Game α) : Prop :=
  StdGeometry g ∧ 0 ≤ g.lives ∧ g.lives ≤ 3 ∧ (g.gameOver = true ↔ g.lives = 0) ∧
    (g.gameWon = true ↔ ∀ r c, (g.bricks r c).active = false) ∧
    ¬ (g.gameOver = true ∧ g.gameWon = true) ∧
    ((g.gameOver = true ∨ g.gameWon = true) → g.gameStarted = true)

/-- The five phases of the specification, read off the flags: NotStarted is
`!gameStarted`, GameOver is `gameOver`, Won is `gameWon`, and a started game
that is neither over nor won is in Countdown or in Playing by elapsed time. -/
inductive Phase where
  | NotStarted
  | Countdown
  | Playing
  | GameOver
  | Won

/-- When a phase holds in state `g` at time `currentTime`. -/
def PhaseHolds (currentTime : Nat) (g : Game α) : Phase → Prop
  | Phase.NotStarted => g.gameStarted = false
  | Phase.GameOver => g.gameOver = true
  | Phase.Won => g.gameWon = true
  | Phase.Countdown =>
    g.gameStarted = true ∧ g.gameOver = false ∧ g.gameWon = false ∧
      elapsed currentTime g < COUNTDOWN_DURATION
  | Phase.Playing => Playing currentTime g

/-- The test of the paddle block: `checkCollision` of the paddle with the ball. -/
def paddleHit (g : Game α) : Bool :=
  checkCollision g.paddle g.ball.x g.ball.y g.ball.size

/-- Some brick that is active in `g` is inactive in `g2`. -/
def Destroyed (g g2 : Game α) : Prop :=
  ∃ r c, (g.bricks r c).active = true ∧ (g2.bricks r c).active = false

/-- The local `normalizedIntersect` of the paddle block, for the ball and
paddle of `g`. -/
def normalizedIntersect (g : Game α) : α :=
  ((g.paddle.x + (g.paddle.width / 2)) - g.ball.x) / (g.paddle.width / 2)

/-- The local `angle` of the paddle block: `normalizedIntersect` times 60 degrees. -/
def bounceAngle (m : Libm α) (g : Game α) : α :=
  normalizedIntersect g * (60 * m.M_PI / 180)

/-- What the specification asks of a ball `b` launched from the random draw `r`:
the draw lies in `[-5, 5]`, a draw with `|r| < 2.5` is replaced by `2.5` if
`r > 0` and by `-2.5` otherwise, `2.5 ≤ |dx| ≤ 5`, and `dy = -5`. -/
def LaunchedFrom (r : α) (b : Ball α) : Prop :=
  -5 ≤ r ∧ r ≤ 5 ∧
    b.dx = (if |r| < 5 / 2 then (if r > 0 then 5 / 2 else -(5 / 2)) else r) ∧
    5 / 2 ≤ |b.dx| ∧ |b.dx| ≤ 5 ∧ b.dy = -5

/-- The number of inactive bricks in the grid. -/
def inactiveCount (g : Game α) : Nat :=
  ((Finset.univ : Finset (Fin NUM_BRICK_ROWS × Fin NUM_BRICK_COLUMNS)).filter
    (fun rc => (g.bricks rc.1 rc.2).active = false)).card

/-- The streak is at most the number of bricks destroyed so far, and the score
at most what that many bricks can give in one streak. -/
def Bounds (g : Game α) : Prop :=
  0 ≤ g.consecutiveHits ∧ g.consecutiveHits ≤ (inactiveCount g : Int) ∧ 0 ≤ g.score ∧
    2 * g.score ≤ 15 * (inactiveCount g : Int) + 5 * (inactiveCount g : Int) * (inactiveCount g : Int)

/-! ## Concrete inputs used to run the definitions -/

/-- A stand-in for `math.h` over `ℚ`; the examples below never reach the paddle
block, so their results do not depend on it. -/
def sampleLibm : Libm ℚ :=
  { sqrt := fun x => x, sin := fun _ => 0, cos := fun _ => 1, M_PI := 3 }

/-- A state of play: the state after `main` has initialised the game, started,
with the ball moving up and to the right. -/
def sampleState : Game ℚ :=
  { (mainInit : Game ℚ) with
    gameStarted := true
    ball := { x := 400, y := 240, dx := 3, dy := -5, size := 15 } }

/-- The state in which the countdown has just ended: ball at rest in the
centre. -/
def launchState : Game ℚ :=
  { (mainInit : Game ℚ) with gameStarted := true }

/-- A state of play with three lives in which the ball is about to leave
through the bottom. -/
def missState : Game ℚ :=
  { (mainInit : Game ℚ) with
    gameStarted := true
    ball := { x := 400, y := 470, dx := 0, dy := 5, size := 15 } }

/-- The same with one life left. -/
def lastLifeState : Game ℚ :=
  { missState with lives := 1 }

/-- A lost game: no life left, `gameOver` set. -/
def overState : Game ℚ :=
  { lastLifeState with lives := 0, gameOver := true }

/-- A state of play, over any field, with the paddle moved left to `x = 56`, all
bricks in place, and the ball at `(x, y)` with velocity `(dx, dy)`. -/
def approachState (x y dx dy : α) : Game α :=
  { (mainInit : Game α) with
    gameStarted := true
    paddle := { (mainInit : Game α).paddle with x := 56 }
    ball := { x := x, y := y, dx := dx, dy := dy, size := 15 } }

/-- A state of play, over any field, with the paddle moved left to `x = 56`, one
brick, `(4, 3)`, destroyed, and the ball coming down to the left of the paddle:
one tick later it overlaps the left end of the paddle. -/
def edgeState : Game α :=
  { (mainInit : Game α) with
    gameStarted := true
    paddle := { (mainInit : Game α).paddle with x := 56 }
    ball := { x := 55, y := 425, dx := -5, dy := 5, size := 15 }
    bricks := fun r c =>
      if r = 4 ∧ c = 3 then { (initBrick 4 3 : GameObject α) with active := false }
      else initBrick r c
    score := 10
    consecutiveHits := 1 }

/-- The state `g` with the ball moved `n` times by its velocity. -/
def flight (n : Nat) (g : Game α) : Game α :=
  { g with
    ball :=
      { g.ball with
        x := g.ball.x + (n : α) * g.ball.dx
        y := g.ball.y + (n : α) * g.ball.dy } }

/-- The state `g` with the paddle moved `n` times to the left by `7`. -/
def paddleLeft (n : Nat) (g : Game α) : Game α :=
  { g with paddle := { g.paddle with x := g.paddle.x - (n : α) * 7 } }

/-- The ball position `(x, y)` of a ball of size 15 touches no wall, is above
the paddle row and below the bricks. -/
def FreeZone (x y : α) : Prop :=
  15 ≤ x ∧ x ≤ 785 ∧ 165 ≤ y ∧ y ≤ 425

theorem find?_finRange_some {n : Nat} (p : Fin n → Bool) (i : Fin n)
    (h : (List.finRange n).find? p = some i) : p i = true ∧ ∀ j, j < i → p j = false := by
  rw [List.find?_eq_some] at h
  obtain ⟨hp, as, bs, hsplit, has⟩ := h
  refine ⟨hp, fun j hj => ?_⟩
  have hmem : j ∈ as ++ i :: bs := hsplit ▸ List.mem_finRange j
  have hpw : List.Pairwise (· < ·) (as ++ i :: bs) := hsplit ▸ List.pairwise_lt_finRange n
  rcases List.mem_append.1 hmem with hja | hjb
  · simpa using has j hja
  · exfalso
    rcases List.mem_cons.1 hjb with hji | hjbs
    · exact absurd hji (ne_of_lt hj)
    · have h2 := (List.pairwise_cons.1 (List.pairwise_append.1 hpw).2.1).1 j hjbs
      exact absurd hj (not_lt.2 (le_of_lt h2))

theorem find?_finRange_none {n : Nat} (p : Fin n → Bool)
    (h : (List.finRange n).find? p = none) (j : Fin n) : p j = false := by
  rw [List.find?_eq_none] at h
  simpa using h j (List.mem_finRange j)

theorem brickColLoop_eq (row : Fin NUM_BRICK_ROWS) (cols : List (Fin NUM_BRICK_COLUMNS))
    (g : Game α) :
    brickColLoop row cols g =
      match cols.find? (fun c => brickHit g row c) with
      | some c => (onBrickHit row c g, true)
      | none => (g, false) := by
  induction cols with
  | nil => rfl
  | cons c rest ih =>
    by_cases hc : brickHit g row c = true
    · have hc2 := hc
      unfold brickHit at hc2
      simp [brickColLoop, hc, hc2]
    · have hc2 := hc
      unfold brickHit at hc2
      simp [brickColLoop, hc, hc2, ih]

theorem brickColLoop_cases (row : Fin NUM_BRICK_ROWS) (g : Game α) :
    ((∀ c, brickHit g row c = false) ∧
        brickColLoop row (List.finRange NUM_BRICK_COLUMNS) g = (g, false)) ∨
      (∃ c, brickHit g row c = true ∧ (∀ j, j < c → brickHit g row j = false) ∧
        brickColLoop row (List.finRange NUM_BRICK_COLUMNS) g = (onBrickHit row c g, true)) := by
  rw [brickColLoop_eq]
  cases hf : (List.finRange NUM_BRICK_COLUMNS).find? (fun c => brickHit g row c) with
  | none => exact Or.inl ⟨fun c => find?_finRange_none _ hf c, rfl⟩
  | some c =>
    obtain ⟨h1, h2⟩ := find?_finRange_some _ c hf
    exact Or.inr ⟨c, h1, h2, rfl⟩

theorem brickRowLoop_eq (rows : List (Fin NUM_BRICK_ROWS)) (g : Game α) :
    brickRowLoop rows g =
      match rows.find? (fun r => (brickColLoop r (List.finRange NUM_BRICK_COLUMNS) g).2) with
      | some r => brickColLoop r (List.finRange NUM_BRICK_COLUMNS) g
      | none => (g, false) := by
  induction rows with
  | nil => rfl
  | cons r rest ih =>
    rcases brickColLoop_cases r g with ⟨_, h⟩ | ⟨c, _, _, h⟩
    · simp [brickRowLoop, h, ih]
    · simp [brickRowLoop, h]

/-- The scan either finds no brick and returns the state unchanged with the
flag clear, or runs the hit body on the first brick in row-major order that
passes the test. -/
theorem brickStep_cases (g : Game α) :
    ((∀ r c, brickHit g r c = false) ∧ brickStep g = (g, false)) ∨
      (∃ r c, FirstHit g r c ∧ brickStep g = (onBrickHit r c g, true)) := by
  unfold brickStep
  rw [brickRowLoop_eq]
  cases hf : (List.finRange NUM_BRICK_ROWS).find?
      (fun r => (brickColLoop r (List.finRange NUM_BRICK_COLUMNS) g).2) with
  | none =>
    refine Or.inl ⟨fun r c => ?_, rfl⟩
    have hr := find?_finRange_none _ hf r
    rcases brickColLoop_cases r g with ⟨h, _⟩ | ⟨c0, _, _, h⟩
    · exact h c
    · rw [h] at hr
      exact absurd hr (by simp)
  | some r =>
    obtain ⟨h1, h2⟩ := find?_finRange_some _ r hf
    rcases brickColLoop_cases r g with ⟨_, h⟩ | ⟨c, hc, hlt, h⟩
    · rw [h] at h1
      exact absurd h1 (by simp)
    · refine Or.inr ⟨r, c, ⟨hc, fun r2 c2 hlex => ?_⟩, h⟩
      rcases hlex with hlt2 | ⟨heq, hlt2⟩
      · have hr2 := h2 r2 hlt2
        rcases brickColLoop_cases r2 g with ⟨h3, _⟩ | ⟨c3, _, _, h3⟩
        · exact h3 c2
        · rw [h3] at hr2
          exact absurd hr2 (by simp)
      · subst heq
        exact hlt c2 hlt2

/-! ## Fields left alone by each block of the tick -/

@[simp] theorem launchStep_paddle (draw : Nat → α) (g : Game α) :
    (launchStep draw g).1.paddle = g.paddle := by
  unfold launchStep; split_ifs <;> rfl

@[simp] theorem launchStep_bricks (draw : Nat → α) (g : Game α) :
    (launchStep draw g).1.bricks = g.bricks := by
  unfold launchStep; split_ifs <;> rfl

@[simp] theorem launchStep_lives (draw : Nat → α) (g : Game α) :
    (launchStep draw g).1.lives = g.lives := by
  unfold launchStep; split_ifs <;> rfl

@[simp] theorem launchStep_gameOver (draw : Nat → α) (g : Game α) :
    (launchStep draw g).1.gameOver = g.gameOver := by
  unfold launchStep; split_ifs <;> rfl

@[simp] theorem launchStep_gameWon (draw : Nat → α) (g : Game α) :
    (launchStep draw g).1.gameWon = g.gameWon := by
  unfold launchStep; split_ifs <;> rfl

@[simp] theorem launchStep_gameStarted (draw : Nat → α) (g : Game α) :
    (launchStep draw g).1.gameStarted = g.gameStarted := by
  unfold launchStep; split_ifs <;> rfl

@[simp] theorem launchStep_score (draw : Nat → α) (g : Game α) :
    (launchStep draw g).1.score = g.score := by
  unfold launchStep; split_ifs <;> rfl

@[simp] theorem launchStep_consecutiveHits (draw : Nat → α) (g : Game α) :
    (launchStep draw g).1.consecutiveHits = g.consecutiveHits := by
  unfold launchStep; split_ifs <;> rfl

@[simp] theorem launchStep_ball_size (draw : Nat → α) (g : Game α) :
    (launchStep draw g).1.ball.size = g.ball.size := by
  unfold launchStep; split_ifs <;> rfl

@[simp] theorem moveStep_paddle (g : Game α) :
    (moveStep g).paddle = g.paddle := by
  unfold moveStep; rfl

@[simp] theorem moveStep_bricks (g : Game α) :
    (moveStep g).bricks = g.bricks := by
  unfold moveStep; rfl

@[simp] theorem moveStep_lives (g : Game α) :
    (moveStep g).lives = g.lives := by
  unfold moveStep; rfl

@[simp] theorem moveStep_gameOver (g : Game α) :
    (moveStep g).gameOver = g.gameOver := by
  unfold moveStep; rfl

@[simp] theorem moveStep_gameWon (g : Game α) :
    (moveStep g).gameWon = g.gameWon := by
  unfold moveStep; rfl

@[simp] theorem moveStep_gameStarted (g : Game α) :
    (moveStep g).gameStarted = g.gameStarted := by
  unfold moveStep; rfl

@[simp] theorem moveStep_score (g : Game α) :
    (moveStep g).score = g.score := by
  unfold moveStep; rfl

@[simp] theorem moveStep_consecutiveHits (g : Game α) :
    (moveStep g).consecutiveHits = g.consecutiveHits := by
  unfold moveStep; rfl

@[simp] theorem moveStep_ball_size (g : Game α) :
    (moveStep g).ball.size = g.ball.size := by
  unfold moveStep; rfl

@[simp] theorem wallStep_paddle (g : Game α) :
    (wallStep g).paddle = g.paddle := by
  unfold wallStep; rfl

@[simp] theorem wallStep_bricks (g : Game α) :
    (wallStep g).bricks = g.bricks := by
  unfold wallStep; rfl

@[simp] theorem wallStep_lives (g : Game α) :
    (wallStep g).lives = g.lives := by
  unfold wallStep; rfl

@[simp] theorem wallStep_gameOver (g : Game α) :
    (wallStep g).gameOver = g.gameOver := by
  unfold wallStep; rfl

@[simp] theorem wallStep_gameWon (g : Game α) :
    (wallStep g).gameWon = g.gameWon := by
  unfold wallStep; rfl

@[simp] theorem wallStep_gameStarted (g : Game α) :
    (wallStep g).gameStarted = g.gameStarted := by
  unfold wallStep; rfl

@[simp] theorem wallStep_score (g : Game α) :
    (wallStep g).score = g.score := by
  unfold wallStep; rfl

@[simp] theorem wallStep_consecutiveHits (g : Game α) :
    (wallStep g).consecutiveHits = g.consecutiveHits := by
  unfold wallStep; rfl

@[simp] theorem wallStep_ball_size (g : Game α) :
    (wallStep g).ball.size = g.ball.size := by
  unfold wallStep; dsimp only; split_ifs <;> rfl

@[simp] theorem missStep_bricks (r : α) (g : Game α) :
    (missStep r g).bricks = g.bricks := by
  unfold missStep; dsimp only; split_ifs <;> rfl

@[simp] theorem missStep_gameWon (r : α) (g : Game α) :
    (missStep r g).gameWon = g.gameWon := by
  unfold missStep; dsimp only; split_ifs <;> rfl

@[simp] theorem missStep_gameStarted (r : α) (g : Game α) :
    (missStep r g).gameStarted = g.gameStarted := by
  unfold missStep; dsimp only; split_ifs <;> rfl

@[simp] theorem missStep_score (r : α) (g : Game α) :
    (missStep r g).score = g.score := by
  unfold missStep; dsimp only; split_ifs <;> rfl

@[simp] theorem missStep_consecutiveHits (r : α) (g : Game α) :
    (missStep r g).consecutiveHits = g.consecutiveHits := by
  unfold missStep; dsimp only; split_ifs <;> rfl

@[simp] theorem missStep_ball_size (r : α) (g : Game α) :
    (missStep r g).ball.size = g.ball.size := by
  unfold missStep; dsimp only; split_ifs <;> rfl

@[simp] theorem paddleStep_paddle (m : Libm α) (g : Game α) :
    (paddleStep m g).paddle = g.paddle := by
  unfold paddleStep; split_ifs <;> rfl

@[simp] theorem paddleStep_bricks (m : Libm α) (g : Game α) :
    (paddleStep m g).bricks = g.bricks := by
  unfold paddleStep; split_ifs <;> rfl

@[simp] theorem paddleStep_lives (m : Libm α) (g : Game α) :
    (paddleStep m g).lives = g.lives := by
  unfold paddleStep; split_ifs <;> rfl

@[simp] theorem paddleStep_gameOver (m : Libm α) (g : Game α) :
    (paddleStep m g).gameOver = g.gameOver := by
  unfold paddleStep; split_ifs <;> rfl

@[simp] theorem paddleStep_gameWon (m : Libm α) (g : Game α) :
    (paddleStep m g).gameWon = g.gameWon := by
  unfold paddleStep; split_ifs <;> rfl

@[simp] theorem paddleStep_gameStarted (m : Libm α) (g : Game α) :
    (paddleStep m g).gameStarted = g.gameStarted := by
  unfold paddleStep; split_ifs <;> rfl

@[simp] theorem paddleStep_score (m : Libm α) (g : Game α) :
    (paddleStep m g).score = g.score := by
  unfold paddleStep; split_ifs <;> rfl

@[simp] theorem paddleStep_ball_size (m : Libm α) (g : Game α) :
    (paddleStep m g).ball.size = g.ball.size := by
  unfold paddleStep; split_ifs <;> rfl

@[simp] theorem winStep_paddle (g : Game α) :
    (winStep g).paddle = g.paddle := by
  unfold winStep; split_ifs <;> rfl

@[simp] theorem winStep_bricks (g : Game α) :
    (winStep g).bricks = g.bricks := by
  unfold winStep; split_ifs <;> rfl

@[simp] theorem winStep_lives (g : Game α) :
    (winStep g).lives = g.lives := by
  unfold winStep; split_ifs <;> rfl

@[simp] theorem winStep_gameOver (g : Game α) :
    (winStep g).gameOver = g.gameOver := by
  unfold winStep; split_ifs <;> rfl

@[simp] theorem winStep_gameStarted (g : Game α) :
    (winStep g).gameStarted = g.gameStarted := by
  unfold winStep; split_ifs <;> rfl

@[simp] theorem winStep_score (g : Game α) :
    (winStep g).score = g.score := by
  unfold winStep; split_ifs <;> rfl

@[simp] theorem winStep_consecutiveHits (g : Game α) :
    (winStep g).consecutiveHits = g.consecutiveHits := by
  unfold winStep; split_ifs <;> rfl

@[simp] theorem winStep_ball_size (g : Game α) :
    (winStep g).ball.size = g.ball.size := by
  unfold winStep; split_ifs <;> rfl

/-! ## Shape of a physics tick -/

theorem updateGame_playing (m : Libm α) (currentTime : Nat)
    (draw : Nat → α) (g : Game α) (h : Playing currentTime g) :
    updateGame m currentTime draw g = physicsTick m draw g := by
  obtain ⟨h1, h2, h3, h4⟩ := h
  unfold updateGame
  simp [h1, h2, h3, h4]

theorem updateGame_not_playing (m : Libm α) (currentTime : Nat)
    (draw : Nat → α) (g : Game α) (h : ¬ Playing currentTime g) :
    updateGame m currentTime draw g = g := by
  unfold updateGame
  unfold Playing at h
  split_ifs with h1 h2
  · rfl
  · rfl
  · exfalso
    apply h
    simp only [Bool.or_eq_true, Bool.not_eq_true', not_or, Bool.not_eq_false,
      Bool.not_eq_true] at h1
    exact ⟨h1.1.1, h1.1.2, h1.2, h2⟩

theorem paddleStep_consecutiveHits_eq (m : Libm α) (g : Game α) :
    (paddleStep m g).consecutiveHits = if paddleHit g then 0 else g.consecutiveHits := by
  unfold paddleStep paddleHit
  split_ifs <;> rfl

@[simp] theorem beforeMiss_bricks (draw : Nat → α) (g : Game α) :
    (beforeMiss draw g).bricks = g.bricks := by
  simp [beforeMiss]

@[simp] theorem beforePaddle_bricks (draw : Nat → α) (g : Game α) :
    (beforePaddle draw g).bricks = g.bricks := by
  simp [beforePaddle]

@[simp] theorem beforeBricks_bricks (m : Libm α) (draw : Nat → α)
    (g : Game α) : (beforeBricks m draw g).bricks = g.bricks := by
  simp [beforeBricks]

@[simp] theorem beforePaddle_score (draw : Nat → α) (g : Game α) :
    (beforePaddle draw g).score = g.score := by
  simp [beforePaddle, beforeMiss]

@[simp] theorem beforeBricks_score (m : Libm α) (draw : Nat → α)
    (g : Game α) : (beforeBricks m draw g).score = g.score := by
  simp [beforeBricks]

@[simp] theorem beforePaddle_consecutiveHits (draw : Nat → α)
    (g : Game α) : (beforePaddle draw g).consecutiveHits = g.consecutiveHits := by
  simp [beforePaddle, beforeMiss]

theorem beforeBricks_consecutiveHits (m : Libm α) (draw : Nat → α)
    (g : Game α) :
    (beforeBricks m draw g).consecutiveHits =
      if paddleHit (beforePaddle draw g) then 0 else g.consecutiveHits := by
  simp [beforeBricks, paddleStep_consecutiveHits_eq]

@[simp] theorem onBrickHit_bricks_same (row : Fin NUM_BRICK_ROWS) (col : Fin NUM_BRICK_COLUMNS)
    (g : Game α) :
    (onBrickHit row col g).bricks row col = { g.bricks row col with active := false } := by
  simp [onBrickHit]

theorem onBrickHit_bricks_other (row r : Fin NUM_BRICK_ROWS) (col c : Fin NUM_BRICK_COLUMNS)
    (g : Game α) (h : ¬ (r = row ∧ c = col)) :
    (onBrickHit row col g).bricks r c = g.bricks r c := by
  simp [onBrickHit, h]

@[simp] theorem onBrickHit_score (row : Fin NUM_BRICK_ROWS) (col : Fin NUM_BRICK_COLUMNS)
    (g : Game α) : (onBrickHit row col g).score = g.score + (10 + g.consecutiveHits * 5) := rfl

@[simp] theorem onBrickHit_consecutiveHits (row : Fin NUM_BRICK_ROWS)
    (col : Fin NUM_BRICK_COLUMNS) (g : Game α) :
    (onBrickHit row col g).consecutiveHits = g.consecutiveHits + 1 := rfl

/-- The two outcomes of a physics tick, in terms of the state `q` in which the
brick scan starts. -/
theorem physicsTick_cases (m : Libm α) (draw : Nat → α) (g : Game α) :
    ((∀ r c, brickHit (beforeBricks m draw g) r c = false) ∧
        physicsTick m draw g = winStep (beforeBricks m draw g)) ∨
      (∃ r c, FirstHit (beforeBricks m draw g) r c ∧
        physicsTick m draw g =
          winStep (onBrickHit r c (beforeBricks m draw g))) := by
  unfold physicsTick
  rcases brickStep_cases (beforeBricks m draw g) with ⟨h1, h2⟩ | ⟨r, c, h1, h2⟩
  · exact Or.inl ⟨h1, by rw [h2]⟩
  · exact Or.inr ⟨r, c, h1, by rw [h2]⟩

theorem brickHit_active (g : Game α) (r : Fin NUM_BRICK_ROWS) (c : Fin NUM_BRICK_COLUMNS)
    (h : brickHit g r c = true) : (g.bricks r c).active = true := by
  unfold brickHit at h
  simp only [Bool.and_eq_true] at h
  exact h.1

theorem firstHit_unique (g : Game α) (r r2 : Fin NUM_BRICK_ROWS)
    (c c2 : Fin NUM_BRICK_COLUMNS) (h : FirstHit g r c) (h2 : FirstHit g r2 c2) :
    r = r2 ∧ c = c2 := by
  obtain ⟨ha, hb⟩ := h
  obtain ⟨ha2, hb2⟩ := h2
  rcases lt_trichotomy r r2 with hlt | heq | hgt
  · exact absurd ha (by simp [hb2 r c (Or.inl hlt)])
  · subst heq
    rcases lt_trichotomy c c2 with hlt | heq | hgt
    · exact absurd ha (by simp [hb2 r c (Or.inr ⟨rfl, hlt⟩)])
    · exact ⟨rfl, heq⟩
    · exact absurd ha2 (by simp [hb r c2 (Or.inr ⟨rfl, hgt⟩)])
  · exact absurd ha2 (by simp [hb r2 c2 (Or.inl hgt)])

theorem checkCollision_iff_aux (obj : GameObject α) (x y size : α) :
    checkCollision obj x y size = true ↔
      (x + size > obj.x ∧ x - size < obj.x + obj.width ∧
        y + size > obj.y ∧ y - size < obj.y + obj.height) := by
  unfold checkCollision
  simp only [Bool.and_eq_true, decide_eq_true_eq]
  tauto

/-! ## The bottom test and more frame facts -/

theorem missStep_cases (r : α) (g : Game α) :
    (¬ g.ball.y + g.ball.size > ((WINDOW_HEIGHT : Int) : α) ∧ missStep r g = g) ∨
      (g.ball.y + g.ball.size > ((WINDOW_HEIGHT : Int) : α) ∧ g.lives - 1 ≤ 0 ∧
        missStep r g = { g with lives := g.lives - 1, gameOver := true }) ∨
      (g.ball.y + g.ball.size > ((WINDOW_HEIGHT : Int) : α) ∧ 0 < g.lives - 1 ∧
        missStep r g =
          { g with
            lives := g.lives - 1
            ball :=
              { g.ball with
                x := ((WINDOW_WIDTH / 2 : Int) : α)
                y := ((WINDOW_HEIGHT / 2 : Int) : α)
                dx := ensureHorizontalSpeed r
                dy := -BALL_SPEED }
            paddle :=
              { g.paddle with x := ((WINDOW_WIDTH / 2 - PADDLE_WIDTH / 2 : Int) : α) } }) := by
  unfold missStep
  by_cases h1 : g.ball.y + g.ball.size > ((WINDOW_HEIGHT : Int) : α)
  · by_cases h2 : g.lives - 1 ≤ 0
    · exact Or.inr (Or.inl ⟨h1, h2, by simp only [h1, h2, if_true]⟩)
    · exact Or.inr (Or.inr ⟨h1, not_le.1 h2, by simp only [h1, h2, if_true, if_false]⟩)
  · exact Or.inl ⟨h1, by simp only [h1, if_false]⟩

@[simp] theorem missStep_paddle_y (r : α) (g : Game α) :
    (missStep r g).paddle.y = g.paddle.y := by
  rcases missStep_cases r g with ⟨_, h⟩ | ⟨_, _, h⟩ | ⟨_, _, h⟩ <;> rw [h]

@[simp] theorem missStep_paddle_width (r : α) (g : Game α) :
    (missStep r g).paddle.width = g.paddle.width := by
  rcases missStep_cases r g with ⟨_, h⟩ | ⟨_, _, h⟩ | ⟨_, _, h⟩ <;> rw [h]

@[simp] theorem missStep_paddle_height (r : α) (g : Game α) :
    (missStep r g).paddle.height = g.paddle.height := by
  rcases missStep_cases r g with ⟨_, h⟩ | ⟨_, _, h⟩ | ⟨_, _, h⟩ <;> rw [h]

@[simp] theorem onBrickHit_paddle (row : Fin NUM_BRICK_ROWS) (col : Fin NUM_BRICK_COLUMNS)
    (g : Game α) : (onBrickHit row col g).paddle = g.paddle := rfl

@[simp] theorem onBrickHit_lives (row : Fin NUM_BRICK_ROWS) (col : Fin NUM_BRICK_COLUMNS)
    (g : Game α) : (onBrickHit row col g).lives = g.lives := rfl

@[simp] theorem onBrickHit_gameOver (row : Fin NUM_BRICK_ROWS) (col : Fin NUM_BRICK_COLUMNS)
    (g : Game α) : (onBrickHit row col g).gameOver = g.gameOver := rfl

@[simp] theorem onBrickHit_gameWon (row : Fin NUM_BRICK_ROWS) (col : Fin NUM_BRICK_COLUMNS)
    (g : Game α) : (onBrickHit row col g).gameWon = g.gameWon := rfl

@[simp] theorem onBrickHit_gameStarted (row : Fin NUM_BRICK_ROWS)
    (col : Fin NUM_BRICK_COLUMNS) (g : Game α) :
    (onBrickHit row col g).gameStarted = g.gameStarted := rfl

@[simp] theorem onBrickHit_ball_size (row : Fin NUM_BRICK_ROWS) (col : Fin NUM_BRICK_COLUMNS)
    (g : Game α) : (onBrickHit row col g).ball.size = g.ball.size := by
  unfold onBrickHit; dsimp only; split_ifs <;> rfl

@[simp] theorem onBrickHit_ball_x (row : Fin NUM_BRICK_ROWS) (col : Fin NUM_BRICK_COLUMNS)
    (g : Game α) : (onBrickHit row col g).ball.x = g.ball.x := by
  unfold onBrickHit; dsimp only; split_ifs <;> rfl

@[simp] theorem onBrickHit_ball_y (row : Fin NUM_BRICK_ROWS) (col : Fin NUM_BRICK_COLUMNS)
    (g : Game α) : (onBrickHit row col g).ball.y = g.ball.y := by
  unfold onBrickHit; dsimp only; split_ifs <;> rfl

@[simp] theorem winStep_ball (g : Game α) : (winStep g).ball = g.ball := by
  unfold winStep; split_ifs <;> rfl

theorem winStep_gameWon_eq (g : Game α) :
    (winStep g).gameWon = (allBricksBroken g || g.gameWon) := by
  unfold winStep
  cases h : allBricksBroken g <;> simp

theorem allBricksBroken_iff (g : Game α) :
    allBricksBroken g = true ↔ ∀ r c, (g.bricks r c).active = false := by
  unfold allBricksBroken
  simp [List.all_eq_true, List.mem_finRange]

theorem allBricksBroken_congr (g g2 : Game α) (h : g2.bricks = g.bricks) :
    allBricksBroken g2 = allBricksBroken g := by
  unfold allBricksBroken
  rw [h]

theorem stdGeometry_congr (g g2 : Game α) (hy : g2.paddle.y = g.paddle.y)
    (hw : g2.paddle.width = g.paddle.width) (hh : g2.paddle.height = g.paddle.height)
    (hs : g2.ball.size = g.ball.size)
    (hb : ∀ r c, (g2.bricks r c).x = (g.bricks r c).x ∧ (g2.bricks r c).y = (g.bricks r c).y ∧
      (g2.bricks r c).width = (g.bricks r c).width ∧
      (g2.bricks r c).height = (g.bricks r c).height)
    (h : StdGeometry g) : StdGeometry g2 := by
  obtain ⟨h1, h2, h3, h4, h5⟩ := h
  refine ⟨hy.trans h1, hw.trans h2, hh.trans h3, hs.trans h4, fun r c => ?_⟩
  obtain ⟨a1, a2, a3, a4⟩ := hb r c
  obtain ⟨b1, b2, b3, b4⟩ := h5 r c
  exact ⟨a1.trans b1, a2.trans b2, a3.trans b3, a4.trans b4⟩

theorem onBrickHit_bricks_geom (row r : Fin NUM_BRICK_ROWS) (col c : Fin NUM_BRICK_COLUMNS)
    (g : Game α) :
    ((onBrickHit row col g).bricks r c).x = (g.bricks r c).x ∧
      ((onBrickHit row col g).bricks r c).y = (g.bricks r c).y ∧
      ((onBrickHit row col g).bricks r c).width = (g.bricks r c).width ∧
      ((onBrickHit row col g).bricks r c).height = (g.bricks r c).height := by
  by_cases h : r = row ∧ c = col
  · obtain ⟨rfl, rfl⟩ := h
    simp
  · rw [onBrickHit_bricks_other _ _ _ _ _ h]
    simp

/-! ## The invariant of the main loop -/

theorem beforeMiss_frame (draw : Nat → α) (g : Game α) :
    (beforeMiss draw g).paddle = g.paddle ∧
      (beforeMiss draw g).lives = g.lives ∧
      (beforeMiss draw g).gameOver = g.gameOver ∧
      (beforeMiss draw g).gameWon = g.gameWon ∧
      (beforeMiss draw g).gameStarted = g.gameStarted ∧
      (beforeMiss draw g).ball.size = g.ball.size := by
  simp [beforeMiss]

theorem beforePaddle_cases (draw : Nat → α) (g : Game α) :
    (beforePaddle draw g = beforeMiss draw g) ∨
      ((beforeMiss draw g).ball.y + g.ball.size > ((WINDOW_HEIGHT : Int) : α) ∧
        g.lives - 1 ≤ 0 ∧
        beforePaddle draw g =
          { beforeMiss draw g with lives := g.lives - 1, gameOver := true }) ∨
      ((beforeMiss draw g).ball.y + g.ball.size > ((WINDOW_HEIGHT : Int) : α) ∧
        0 < g.lives - 1 ∧
        (beforePaddle draw g).lives = g.lives - 1 ∧
        (beforePaddle draw g).gameOver = g.gameOver) := by
  obtain ⟨_, hl, hgo, _, _, hsz⟩ := beforeMiss_frame draw g
  unfold beforePaddle
  rcases missStep_cases (draw (launchStep draw g).2)
      (beforeMiss draw g) with ⟨_, h⟩ | ⟨h1, h2, h⟩ | ⟨h1, h2, h⟩
  · exact Or.inl h
  · rw [hsz] at h1
    rw [hl] at h2 h
    exact Or.inr (Or.inl ⟨h1, h2, h⟩)
  · rw [hsz] at h1
    rw [hl] at h2
    refine Or.inr (Or.inr ⟨h1, h2, ?_, ?_⟩)
    · rw [h, ← hl]
    · rw [h, ← hgo]

theorem beforePaddle_geom (draw : Nat → α) (g : Game α)
    (h : StdGeometry g) : StdGeometry (beforePaddle draw g) := by
  refine stdGeometry_congr g _ ?_ ?_ ?_ ?_ (fun r c => ?_) h <;>
    simp [beforePaddle, beforeMiss]

theorem beforeBricks_geom (m : Libm α) (draw : Nat → α) (g : Game α)
    (h : StdGeometry g) : StdGeometry (beforeBricks m draw g) := by
  refine stdGeometry_congr _ _ ?_ ?_ ?_ ?_ (fun r c => ?_) (beforePaddle_geom draw g h) <;>
    simp [beforeBricks]

theorem physicsTick_geom (m : Libm α) (draw : Nat → α) (g : Game α)
    (h : StdGeometry g) : StdGeometry (physicsTick m draw g) := by
  have hq := beforeBricks_geom m draw g h
  rcases physicsTick_cases m draw g with ⟨_, htick⟩ | ⟨r0, c0, _, htick⟩
  · rw [htick]
    refine stdGeometry_congr _ _ ?_ ?_ ?_ ?_ (fun r c => ?_) hq <;> simp
  · rw [htick]
    refine stdGeometry_congr _ _ ?_ ?_ ?_ ?_ (fun r c => ?_) hq
    · simp
    · simp
    · simp
    · simp
    · simpa using onBrickHit_bricks_geom r0 r c0 c (beforeBricks m draw g)

theorem physicsTick_frame (m : Libm α) (draw : Nat → α) (g : Game α) :
    (physicsTick m draw g).lives = (beforePaddle draw g).lives ∧
      (physicsTick m draw g).gameOver = (beforePaddle draw g).gameOver ∧
      (physicsTick m draw g).gameStarted = g.gameStarted ∧
      (physicsTick m draw g).paddle = (beforePaddle draw g).paddle := by
  rcases physicsTick_cases m draw g with ⟨_, htick⟩ | ⟨r0, c0, _, htick⟩ <;>
    rw [htick] <;> simp [beforeBricks, beforePaddle, beforeMiss]

/-- After a physics tick that starts with `gameWon` clear, `gameWon` says
whether every brick is inactive. -/
theorem physicsTick_gameWon (m : Libm α) (draw : Nat → α) (g : Game α)
    (hw : g.gameWon = false) :
    (physicsTick m draw g).gameWon = true ↔
      ∀ r c, ((physicsTick m draw g).bricks r c).active = false := by
  have key : ∀ x : Game α, x.gameWon = false →
      ((winStep x).gameWon = true ↔ ∀ r c, ((winStep x).bricks r c).active = false) := by
    intro x hx
    rw [winStep_gameWon_eq, hx, Bool.or_false, allBricksBroken_iff]
    simp
  unfold physicsTick
  apply key
  rcases brickStep_cases (beforeBricks m draw g) with ⟨_, h2⟩ | ⟨r, c, _, h2⟩ <;>
    rw [h2] <;> simp [beforeBricks, beforePaddle, beforeMiss, hw]

/-- With the layout of `initializeGame`, a ball whose centre is at `y ≥ 165`
overlaps no brick. -/
theorem brickHit_false_of_low (g : Game α) (h : StdGeometry g) (hy : 165 ≤ g.ball.y)
    (r : Fin NUM_BRICK_ROWS) (c : Fin NUM_BRICK_COLUMNS) : brickHit g r c = false := by
  obtain ⟨_, _, _, hsz, hb⟩ := h
  obtain ⟨_, hby, _, hbh⟩ := hb r c
  have hr : (r.val : α) ≤ 4 := by
    have : r.val ≤ 4 := Nat.le_of_lt_succ r.isLt
    exact_mod_cast this
  rw [← Bool.not_eq_true]
  intro hhit
  unfold brickHit at hhit
  simp only [Bool.and_eq_true] at hhit
  have h4 := ((checkCollision_iff_aux (g.bricks r c) g.ball.x g.ball.y g.ball.size).1 hhit.2).2.2.2
  rw [hsz, hby, hbh] at h4
  linarith

theorem paddleStep_ball_y (m : Libm α) (g : Game α) :
    (paddleStep m g).ball.y = if paddleHit g then g.paddle.y - g.ball.size else g.ball.y := by
  unfold paddleStep paddleHit
  split_ifs <;> rfl

theorem paddleStep_ball_x (m : Libm α) (g : Game α) :
    (paddleStep m g).ball.x = g.ball.x := by
  unfold paddleStep
  split_ifs <;> rfl

/-- A physics tick that sets `gameOver` took the last life and leaves the ball
too low to touch a brick. -/
theorem physicsTick_lastLife (m : Libm α) (draw : Nat → α) (g : Game α)
    (hg : StdGeometry g) (ho : g.gameOver = false)
    (hover : (physicsTick m draw g).gameOver = true) :
    g.lives - 1 ≤ 0 ∧ (physicsTick m draw g).lives = g.lives - 1 ∧
      (∀ r c, brickHit (beforeBricks m draw g) r c = false) ∧
      (physicsTick m draw g).bricks = g.bricks := by
  obtain ⟨hl, hgo, _, _⟩ := physicsTick_frame m draw g
  obtain ⟨hbp, _, hbo, _, _, hbs⟩ := beforeMiss_frame draw g
  rw [hgo] at hover
  have hq := beforeBricks_geom m draw g hg
  rcases beforePaddle_cases draw g with h | ⟨h1, h2, h⟩ | ⟨_, _, _, h⟩
  · rw [h, hbo, ho] at hover
    exact Bool.noConfusion hover
  · have hno : ∀ r c, brickHit (beforeBricks m draw g) r c = false := by
      apply brickHit_false_of_low _ hq
      unfold beforeBricks
      rw [paddleStep_ball_y, h]
      dsimp only
      obtain ⟨gy, _, _, gs, _⟩ := hg
      rw [hbp, hbs, gy, gs]
      rw [gs] at h1
      have h480 : ((WINDOW_HEIGHT : Int) : α) = 480 := by norm_num
      rw [h480] at h1
      split_ifs
      · norm_num
      · linarith
    refine ⟨h2, ?_, hno, ?_⟩
    · rw [hl, h]
    · rcases physicsTick_cases m draw g with ⟨_, htick⟩ | ⟨r0, c0, hf, _⟩
      · rw [htick]
        simp
      · exact absurd hf.1 (by simp [hno r0 c0])
  · rw [h, ho] at hover
    exact Bool.noConfusion hover

theorem physicsTick_inv (m : Libm α) (draw : Nat → α) (g : Game α)
    (hinv : Inv g) (hs : g.gameStarted = true) (ho : g.gameOver = false)
    (hw : g.gameWon = false) : Inv (physicsTick m draw g) := by
  obtain ⟨hg, h0, h3, hov, hwon, _, _⟩ := hinv
  obtain ⟨hl, hgo, hst, _⟩ := physicsTick_frame m draw g
  obtain ⟨_, hbl, hbo, _, _, _⟩ := beforeMiss_frame draw g
  have hpos : 1 ≤ g.lives := by
    have hne : g.lives ≠ 0 := fun h => by
      rw [hov.2 h] at ho
      exact Bool.noConfusion ho
    omega
  have hlives : 0 ≤ (physicsTick m draw g).lives ∧
      (physicsTick m draw g).lives ≤ 3 ∧
      ((physicsTick m draw g).gameOver = true ↔
        (physicsTick m draw g).lives = 0) := by
    rw [hl, hgo]
    rcases beforePaddle_cases draw g with h | ⟨_, h2, h⟩ | ⟨_, h2, h3a, h3b⟩
    · rw [h, hbl, hbo, ho]
      refine ⟨h0, h3, ?_⟩
      constructor
      · intro hf
        exact Bool.noConfusion hf
      · intro hf
        omega
    · rw [h]
      dsimp only
      refine ⟨by omega, by omega, ?_⟩
      constructor
      · intro _
        omega
      · intro _
        rfl
    · rw [h3a, h3b, ho]
      refine ⟨by omega, by omega, ?_⟩
      constructor
      · intro hf
        exact Bool.noConfusion hf
      · intro hf
        omega
  refine ⟨physicsTick_geom m draw g hg, hlives.1, hlives.2.1, hlives.2.2,
    physicsTick_gameWon m draw g hw, ?_, fun _ => hst.trans hs⟩
  rintro ⟨hover, hwin⟩
  obtain ⟨_, _, _, hbr⟩ := physicsTick_lastLife m draw g hg ho hover
  rw [physicsTick_gameWon m draw g hw, hbr, ← hwon, hw] at hwin
  exact Bool.noConfusion hwin

theorem updateGame_inv (m : Libm α) (currentTime : Nat) (draw : Nat → α)
    (g : Game α) (hinv : Inv g) : Inv (updateGame m currentTime draw g) := by
  by_cases hp : Playing currentTime g
  · rw [updateGame_playing m currentTime draw g hp]
    exact physicsTick_inv m draw g hinv hp.1 hp.2.1 hp.2.2.1
  · rw [updateGame_not_playing m currentTime draw g hp]
    exact hinv

theorem initializeGame_geom (ticks : Nat) (g : Game α) : StdGeometry (initializeGame ticks g) := by
  refine ⟨?_, ?_, ?_, ?_, fun r c => ?_⟩
  all_goals simp [initializeGame, initBrick]
  all_goals norm_num

theorem initializeGame_inv (ticks : Nat) (g : Game α) : Inv (initializeGame ticks g) := by
  refine ⟨initializeGame_geom ticks g, ?_, ?_, ?_, ?_, ?_, ?_⟩
  · simp [initializeGame]
  · simp [initializeGame]
  · simp [initializeGame]
  · simp [initializeGame, initBrick]
  · simp [initializeGame]
  · simp [initializeGame]

theorem handleEvent_inv (ev : Event) (g : Game α) (hinv : Inv g) : Inv (handleEvent ev g) := by
  cases ev with
  | quit => exact hinv
  | keyEscape => exact hinv
  | other => exact hinv
  | keySpace ticks =>
    unfold handleEvent
    dsimp only
    split_ifs with h1 h2
    · obtain ⟨hg, h0, h3, hov, hwon, hex, _⟩ := hinv
      exact ⟨hg, h0, h3, hov, hwon, hex, fun _ => rfl⟩
    · exact initializeGame_inv ticks _
    · exact hinv

theorem movePaddle_frame (left right : Bool) (g : Game α) :
    movePaddle left right g =
      { g with paddle := { g.paddle with x := (movePaddle left right g).paddle.x } } := by
  unfold movePaddle
  cases left <;> cases right <;> cases g.gameStarted && !g.gameOver && !g.gameWon <;> rfl

theorem movePaddle_inv (left right : Bool) (g : Game α) (hinv : Inv g) :
    Inv (movePaddle left right g) := by
  obtain ⟨hg, h0, h3, hov, hwon, hex, hst⟩ := hinv
  rw [movePaddle_frame]
  exact ⟨stdGeometry_congr g _ rfl rfl rfl rfl (fun r c => ⟨rfl, rfl, rfl, rfl⟩) hg,
    h0, h3, hov, hwon, hex, hst⟩

theorem handleInput_inv (events : List Event) (left right : Bool) (g : Game α)
    (hinv : Inv g) : Inv (handleInput events left right g) := by
  unfold handleInput
  apply movePaddle_inv
  induction events generalizing g with
  | nil => exact hinv
  | cons ev rest ih => exact ih _ (handleEvent_inv ev g hinv)

theorem reachable_inv (m : Libm α) (g : Game α)
    (h : Reachable m g) : Inv g := by
  induction h with
  | init ticks g0 => exact initializeGame_inv ticks g0
  | input events left right g _ ih => exact handleInput_inv events left right g ih
  | update currentTime draw g _ ih => exact updateGame_inv m currentTime draw g ih

/-! ## Effect of a physics tick on the grid -/

theorem physicsTick_bricks_other (m : Libm α) (draw : Nat → α) (g : Game α)
    (r : Fin NUM_BRICK_ROWS) (c : Fin NUM_BRICK_COLUMNS)
    (hnf : ¬ FirstHit (beforeBricks m draw g) r c) :
    (physicsTick m draw g).bricks r c = g.bricks r c := by
  rcases physicsTick_cases m draw g with ⟨_, htick⟩ | ⟨r0, c0, hfirst, htick⟩
  · rw [htick]
    simp
  · rw [htick]
    have hne : ¬ (r = r0 ∧ c = c0) := by
      rintro ⟨rfl, rfl⟩
      exact hnf hfirst
    simp [onBrickHit_bricks_other _ _ _ _ _ hne]

theorem physicsTick_bricks_first (m : Libm α) (draw : Nat → α) (g : Game α)
    (r : Fin NUM_BRICK_ROWS) (c : Fin NUM_BRICK_COLUMNS)
    (hf : FirstHit (beforeBricks m draw g) r c) :
    (physicsTick m draw g).bricks r c = { g.bricks r c with active := false } := by
  rcases physicsTick_cases m draw g with ⟨hno, _⟩ | ⟨r0, c0, hfirst, htick⟩
  · exact absurd hf.1 (by simp [hno r c])
  · obtain ⟨rfl, rfl⟩ := firstHit_unique _ _ _ _ _ hf hfirst
    rw [htick]
    simp

theorem sampleState_playing : Playing 5000 sampleState := by
  norm_num [Playing, elapsed, sampleState, mainInit, initializeGame, startupGlobals]

/-! ## The `int` counters stay small

In every reachable state `consecutiveHits ≤ 50` and `score ≤ 6625`, so the
`int` arithmetic of the program never overflows and `Int` models it exactly. -/

theorem inactiveCount_congr (g g2 : Game α) (h : g2.bricks = g.bricks) :
    inactiveCount g2 = inactiveCount g := by
  unfold inactiveCount
  rw [h]

theorem inactiveCount_le (g : Game α) : inactiveCount g ≤ 50 := by
  unfold inactiveCount
  exact (Finset.card_filter_le _ _).trans (by simp [NUM_BRICK_ROWS, NUM_BRICK_COLUMNS])

theorem inactiveCount_onBrickHit (row : Fin NUM_BRICK_ROWS) (col : Fin NUM_BRICK_COLUMNS)
    (g : Game α) (h : (g.bricks row col).active = true) :
    inactiveCount (onBrickHit row col g) = inactiveCount g + 1 := by
  unfold inactiveCount
  have hset : (Finset.univ : Finset (Fin NUM_BRICK_ROWS × Fin NUM_BRICK_COLUMNS)).filter
      (fun rc => ((onBrickHit row col g).bricks rc.1 rc.2).active = false) =
      insert (row, col) ((Finset.univ : Finset (Fin NUM_BRICK_ROWS × Fin NUM_BRICK_COLUMNS)).filter
        (fun rc => (g.bricks rc.1 rc.2).active = false)) := by
    ext ⟨r, c⟩
    simp only [Finset.mem_filter, Finset.mem_univ, true_and, Finset.mem_insert, Prod.mk.injEq]
    by_cases hrc : r = row ∧ c = col
    · obtain ⟨rfl, rfl⟩ := hrc
      simp
    · rw [onBrickHit_bricks_other _ _ _ _ _ hrc]
      simp [hrc]
  rw [hset, Finset.card_insert_of_not_mem]
  simp [h]

theorem initializeGame_bounds (ticks : Nat) (g : Game α) : Bounds (initializeGame ticks g) := by
  have hc : inactiveCount (initializeGame ticks g) = 0 := by
    unfold inactiveCount
    simp [initializeGame, initBrick]
  unfold Bounds
  rw [hc]
  simp [initializeGame]

theorem physicsTick_bounds (m : Libm α) (draw : Nat → α) (g : Game α)
    (h : Bounds g) : Bounds (physicsTick m draw g) := by
  obtain ⟨h1, h2, h3, h4⟩ := h
  have hq : inactiveCount (beforeBricks m draw g) = inactiveCount g :=
    inactiveCount_congr _ _ (beforeBricks_bricks m draw g)
  have hc0 : 0 ≤ (beforeBricks m draw g).consecutiveHits ∧
      (beforeBricks m draw g).consecutiveHits ≤ (inactiveCount g : Int) := by
    rw [beforeBricks_consecutiveHits]
    split_ifs
    · exact ⟨le_refl 0, Int.natCast_nonneg _⟩
    · exact ⟨h1, h2⟩
  rcases physicsTick_cases m draw g with ⟨_, htick⟩ | ⟨r, c, hf, htick⟩
  · have hn : inactiveCount (physicsTick m draw g) = inactiveCount g := by
      rw [htick, inactiveCount_congr _ _ (winStep_bricks _), hq]
    unfold Bounds
    rw [hn, htick]
    simp only [winStep_score, winStep_consecutiveHits, beforeBricks_score]
    exact ⟨hc0.1, hc0.2, h3, h4⟩
  · have hn : inactiveCount (physicsTick m draw g) = inactiveCount g + 1 := by
      rw [htick, inactiveCount_congr _ _ (winStep_bricks _),
        inactiveCount_onBrickHit r c _ (brickHit_active _ r c hf.1), hq]
    unfold Bounds
    rw [hn, htick]
    simp only [winStep_score, winStep_consecutiveHits, onBrickHit_score,
      onBrickHit_consecutiveHits, beforeBricks_score]
    obtain ⟨hc1, hc2⟩ := hc0
    push_cast
    refine ⟨by omega, by omega, by omega, ?_⟩
    nlinarith

theorem updateGame_bounds (m : Libm α) (currentTime : Nat) (draw : Nat → α)
    (g : Game α) (h : Bounds g) : Bounds (updateGame m currentTime draw g) := by
  by_cases hp : Playing currentTime g
  · rw [updateGame_playing m currentTime draw g hp]
    exact physicsTick_bounds m draw g h
  · rw [updateGame_not_playing m currentTime draw g hp]
    exact h

theorem handleEvent_bounds (ev : Event) (g : Game α) (h : Bounds g) :
    Bounds (handleEvent ev g) := by
  cases ev with
  | quit => exact h
  | keyEscape => exact h
  | other => exact h
  | keySpace ticks =>
    unfold handleEvent
    dsimp only
    split_ifs
    · exact h
    · exact initializeGame_bounds ticks _
    · exact h

theorem handleInput_bounds (events : List Event) (left right : Bool) (g : Game α)
    (h : Bounds g) : Bounds (handleInput events left right g) := by
  unfold handleInput
  have hfold : Bounds (events.foldl (fun s ev => handleEvent ev s) g) := by
    induction events generalizing g with
    | nil => exact h
    | cons ev rest ih => exact ih _ (handleEvent_bounds ev g h)
  rw [movePaddle_frame]
  exact hfold

/-- In every reachable state the streak is between 0 and 50 and the score
between 0 and 6625. -/
theorem reachable_bounds (m : Libm α) (g : Game α)
    (h : Reachable m g) :
    0 ≤ g.consecutiveHits ∧ g.consecutiveHits ≤ 50 ∧ 0 ≤ g.score ∧ g.score ≤ 6625 := by
  have hb : Bounds g := by
    induction h with
    | init ticks g0 => exact initializeGame_bounds ticks g0
    | input events left right g _ ih => exact handleInput_bounds events left right g ih
    | update currentTime draw g _ ih => exact updateGame_bounds m currentTime draw g ih
  obtain ⟨h1, h2, h3, h4⟩ := hb
  have hn : (inactiveCount g : Int) ≤ 50 := by exact_mod_cast inactiveCount_le g
  have hn0 : (0 : Int) ≤ (inactiveCount g : Int) := Int.natCast_nonneg _
  refine ⟨h1, by omega, h3, ?_⟩
  nlinarith

/-! ## Launch, relaunch and bounce -/

theorem launchedFrom_of (r : α) (b : Ball α) (h1 : -5 ≤ r) (h2 : r ≤ 5)
    (hdx : b.dx = ensureHorizontalSpeed r) (hdy : b.dy = -BALL_SPEED) : LaunchedFrom r b := by
  have he : ensureHorizontalSpeed r =
      (if |r| < 5 / 2 then (if r > 0 then 5 / 2 else -(5 / 2)) else r) := by
    unfold ensureHorizontalSpeed BALL_SPEED
    split_ifs <;> norm_num
  have hpos : |(5 / 2 : α)| = 5 / 2 := abs_of_pos (by norm_num)
  refine ⟨h1, h2, hdx.trans he, ?_, ?_, hdy⟩
  · rw [hdx, he]
    split_ifs with ha hb
    · rw [hpos]
    · rw [abs_neg, hpos]
    · exact not_lt.1 ha
  · rw [hdx, he]
    split_ifs with ha hb
    · rw [hpos]
      norm_num
    · rw [abs_neg, hpos]
      norm_num
    · exact abs_le.2 ⟨h1, h2⟩

theorem wallStep_inside (g : Game α) (h1 : ¬ g.ball.x - g.ball.size < 0)
    (h2 : ¬ g.ball.x + g.ball.size > ((WINDOW_WIDTH : Int) : α))
    (h3 : ¬ g.ball.y - g.ball.size < 0) : wallStep g = g := by
  unfold wallStep
  dsimp only
  rw [if_neg h1, if_neg h2, if_neg h3]

theorem paddleStep_noHit (m : Libm α) (g : Game α) (h : paddleHit g = false) :
    paddleStep m g = g := by
  unfold paddleHit at h
  unfold paddleStep
  simp [h]

/-- With the layout of `initializeGame`, a ball that is between the bricks and
the paddle when the paddle test is made goes through the rest of the tick
untouched. -/
theorem physicsTick_quiet (m : Libm α) (draw : Nat → α) (g : Game α)
    (hg : StdGeometry g) (hy1 : 165 ≤ (beforePaddle draw g).ball.y)
    (hy2 : (beforePaddle draw g).ball.y + 15 ≤ 440) :
    (physicsTick m draw g).ball = (beforePaddle draw g).ball := by
  have hpg := beforePaddle_geom draw g hg
  have hnp : paddleHit (beforePaddle draw g) = false := by
    rw [← Bool.not_eq_true]
    intro hh
    unfold paddleHit at hh
    have h3 := ((checkCollision_iff_aux _ _ _ _).1 hh).2.2.1
    obtain ⟨gy, _, _, gs, _⟩ := hpg
    rw [gy, gs] at h3
    linarith
  have hq : beforeBricks m draw g = beforePaddle draw g := by
    unfold beforeBricks
    exact paddleStep_noHit m _ hnp
  rcases physicsTick_cases m draw g with ⟨_, htick⟩ | ⟨r0, c0, hf, _⟩
  · rw [htick, hq]
    simp
  · rw [hq] at hf
    exact absurd hf.1 (by simp [brickHit_false_of_low _ hpg hy1 r0 c0])

theorem beforePaddle_first_launch (draw : Nat → α) (g : Game α)
    (r1 : -5 ≤ draw 0) (r2 : draw 0 ≤ 5) (hg : StdGeometry g)
    (hdx : g.ball.dx = 0) (hdy : g.ball.dy = 0) (hx : g.ball.x = 400) (hy : g.ball.y = 240) :
    (beforePaddle draw g).ball =
      { x := 400 + ensureHorizontalSpeed (draw 0)
        y := 240 + -BALL_SPEED
        dx := ensureHorizontalSpeed (draw 0)
        dy := -BALL_SPEED
        size := 15 } := by
  obtain ⟨_, _, _, hsz, _⟩ := hg
  obtain ⟨_, _, _, _, e2, _⟩ := launchedFrom_of _
    ({ x := 0, y := 0, dx := ensureHorizontalSpeed (draw 0),
       dy := -BALL_SPEED, size := 0 } : Ball α) r1 r2 rfl rfl
  dsimp only at e2
  obtain ⟨e3, e4⟩ := abs_le.1 e2
  have hl : launchStep draw g =
      ({ g with ball := { g.ball with
          dx := ensureHorizontalSpeed (draw 0)
          dy := -BALL_SPEED } }, 1) := by
    unfold launchStep
    simp [hdx, hdy]
  have hw : wallStep (moveStep (launchStep draw g).1) =
      moveStep (launchStep draw g).1 := by
    apply wallStep_inside
    · rw [hl]
      simp only [moveStep, hx, hsz]
      linarith
    · rw [hl]
      simp only [moveStep, hx, hsz]
      norm_num
      linarith
    · rw [hl]
      simp only [moveStep, hy, hsz, BALL_SPEED]
      norm_num
  have hb : beforeMiss draw g = moveStep (launchStep draw g).1 := by
    unfold beforeMiss
    exact hw
  have hm : beforePaddle draw g = beforeMiss draw g := by
    unfold beforePaddle
    rcases missStep_cases (draw (launchStep draw g).2)
        (beforeMiss draw g) with ⟨_, h⟩ | ⟨h1, _⟩ | ⟨h1, _⟩
    · exact h
    · exfalso
      rw [hb, hl] at h1
      simp only [moveStep, hy, hsz, BALL_SPEED] at h1
      norm_num at h1
    · exfalso
      rw [hb, hl] at h1
      simp only [moveStep, hy, hsz, BALL_SPEED] at h1
      norm_num at h1
  rw [hm, hb, hl]
  simp only [moveStep, hx, hy, hsz]

theorem beforePaddle_relaunch (draw : Nat → α) (g : Game α)
    (hmiss : (beforeMiss draw g).ball.y + g.ball.size > 480) (hl : 1 < g.lives) :
    (beforePaddle draw g).ball =
      { x := 400
        y := 240
        dx := ensureHorizontalSpeed (draw (launchStep draw g).2)
        dy := -BALL_SPEED
        size := g.ball.size } ∧
      (beforePaddle draw g).paddle.x = 350 ∧
      (beforePaddle draw g).lives = g.lives - 1 := by
  obtain ⟨_, hbl, _, _, _, hbs⟩ := beforeMiss_frame draw g
  have h480 : ((WINDOW_HEIGHT : Int) : α) = 480 := by norm_num
  unfold beforePaddle
  rcases missStep_cases (draw (launchStep draw g).2)
      (beforeMiss draw g) with ⟨h1, _⟩ | ⟨_, h2, _⟩ | ⟨_, _, h⟩
  · rw [hbs, h480] at h1
    exact absurd hmiss h1
  · rw [hbl] at h2
    omega
  · rw [h]
    dsimp only
    rw [hbs, hbl]
    refine ⟨?_, ?_, rfl⟩
    · congr 1 <;> norm_num
    · norm_num

theorem launchStep_congr (draw draw2 : Nat → α) (g : Game α)
    (h : g.ball.dx = 0 ∧ g.ball.dy = 0 → draw2 0 = draw 0) :
    launchStep draw2 g = launchStep draw g := by
  unfold launchStep
  split_ifs with hz
  · rw [h hz]
  · rfl

theorem beforePaddle_lastLife (draw : Nat → α) (g : Game α)
    (hl : g.lives = 1)
    (hmiss : (beforeMiss draw g).ball.y + (beforeMiss draw g).ball.size >
      480) :
    beforePaddle draw g =
      { beforeMiss draw g with lives := 0, gameOver := true } := by
  obtain ⟨_, hbl, _, _, _, _⟩ := beforeMiss_frame draw g
  have h480 : ((WINDOW_HEIGHT : Int) : α) = 480 := by norm_num
  unfold beforePaddle
  rcases missStep_cases (draw (launchStep draw g).2)
      (beforeMiss draw g) with ⟨h1, _⟩ | ⟨_, _, h⟩ | ⟨_, h2, _⟩
  · rw [h480] at h1
    exact absurd hmiss h1
  · rw [h, hbl, hl]
    rfl
  · rw [hbl, hl] at h2
    omega

theorem winStep_of_active (g : Game α) (h : ∃ r c, (g.bricks r c).active = true) :
    winStep g = g := by
  have hb : allBricksBroken g = false := by
    rw [← Bool.not_eq_true, allBricksBroken_iff]
    intro hall
    obtain ⟨r, c, hrc⟩ := h
    rw [hall r c] at hrc
    exact Bool.noConfusion hrc
  unfold winStep
  simp [hb]

theorem paddleHit_false_of_high (g : Game α) (hg : StdGeometry g) (hy : g.ball.y + 15 ≤ 440) :
    paddleHit g = false := by
  rw [← Bool.not_eq_true]
  intro hh
  unfold paddleHit at hh
  have h3 := ((checkCollision_iff_aux _ _ _ _).1 hh).2.2.1
  obtain ⟨gy, _, _, gs, _⟩ := hg
  rw [gy, gs] at h3
  linarith

/-- A tick in which the ball, when the paddle test is made, is between the
bricks and the paddle, and some brick is still active, ends in the state in
which the paddle test is made. -/
theorem updateGame_quiet (m : Libm α) (currentTime : Nat) (draw : Nat → α)
    (g : Game α) (hp : Playing currentTime g) (hg : StdGeometry g)
    (hy1 : 165 ≤ (beforePaddle draw g).ball.y)
    (hy2 : (beforePaddle draw g).ball.y + 15 ≤ 440)
    (hact : ∃ r c, (g.bricks r c).active = true) :
    updateGame m currentTime draw g = beforePaddle draw g := by
  rw [updateGame_playing m currentTime draw g hp]
  have hpg := beforePaddle_geom draw g hg
  have hq : beforeBricks m draw g = beforePaddle draw g := by
    unfold beforeBricks
    exact paddleStep_noHit m _ (paddleHit_false_of_high _ hpg hy2)
  rcases physicsTick_cases m draw g with ⟨_, htick⟩ | ⟨r0, c0, hf, _⟩
  · rw [htick, hq]
    apply winStep_of_active
    simpa using hact
  · rw [hq] at hf
    exact absurd hf.1 (by simp [brickHit_false_of_low _ hpg hy1 r0 c0])

/-- A tick in which the paddle is not touched and brick `(r, c)` is the first
hit, while another brick stays active, ends in the state the hit body leaves. -/
theorem updateGame_hit (m : Libm α) (currentTime : Nat) (draw : Nat → α)
    (g : Game α) (r : Fin NUM_BRICK_ROWS) (c : Fin NUM_BRICK_COLUMNS)
    (hp : Playing currentTime g)
    (hnp : paddleHit (beforePaddle draw g) = false)
    (hf : FirstHit (beforePaddle draw g) r c)
    (hact : ∃ r2 c2, ¬ (r2 = r ∧ c2 = c) ∧ (g.bricks r2 c2).active = true) :
    updateGame m currentTime draw g = onBrickHit r c (beforePaddle draw g) := by
  rw [updateGame_playing m currentTime draw g hp]
  have hq : beforeBricks m draw g = beforePaddle draw g := by
    unfold beforeBricks
    exact paddleStep_noHit m _ hnp
  rcases physicsTick_cases m draw g with ⟨hno, _⟩ | ⟨r0, c0, hf0, htick⟩
  · rw [hq] at hno
    exact absurd hf.1 (by simp [hno r c])
  · rw [hq] at hf0 htick
    obtain ⟨rfl, rfl⟩ := firstHit_unique _ _ _ _ _ hf hf0
    rw [htick]
    apply winStep_of_active
    obtain ⟨r2, c2, hne, ha⟩ := hact
    refine ⟨r2, c2, ?_⟩
    rw [onBrickHit_bricks_other _ _ _ _ _ hne, beforePaddle_bricks]
    exact ha

theorem beforePaddle_flight (draw : Nat → α) (g : Game α)
    (hv : ¬ (g.ball.dx = 0 ∧ g.ball.dy = 0)) (hs : g.ball.size = 15)
    (hz : FreeZone (g.ball.x + g.ball.dx) (g.ball.y + g.ball.dy)) :
    beforePaddle draw g = moveStep g := by
  obtain ⟨z1, z2, z3, z4⟩ := hz
  have hl : launchStep draw g = (g, 0) := by
    unfold launchStep
    rw [if_neg hv]
  have hw : wallStep (moveStep g) = moveStep g := by
    apply wallStep_inside
    · simp only [moveStep, hs]
      linarith
    · simp only [moveStep, hs]
      norm_num
      linarith
    · simp only [moveStep, hs]
      linarith
  unfold beforePaddle beforeMiss
  rw [hl, hw]
  rcases missStep_cases (draw 0) (moveStep g) with ⟨_, h⟩ | ⟨h1, _⟩ | ⟨h1, _⟩
  · exact h
  · exfalso
    simp only [moveStep, hs] at h1
    norm_num at h1
    linarith
  · exfalso
    simp only [moveStep, hs] at h1
    norm_num at h1
    linarith

theorem playing_of_started (g : Game α) (hs : g.gameStarted = true) (ho : g.gameOver = false)
    (hw : g.gameWon = false) : Playing (g.countdownStartTime + 3000) g := by
  refine ⟨hs, ho, hw, ?_⟩
  unfold elapsed
  push_cast
  norm_num

theorem flight_zero (g : Game α) : flight 0 g = g := by
  unfold flight
  simp

theorem flight_succ (n : Nat) (g : Game α) : flight (n + 1) g = moveStep (flight n g) := by
  unfold flight moveStep
  simp only [Nat.cast_add, Nat.cast_one, add_mul, one_mul, add_assoc]

/-- From a reachable state of play with the ball in motion and a brick left,
`n` ticks in which the ball stays clear of walls, bricks and paddle give the
state with the ball moved `n` times. -/
theorem reachable_flight (m : Libm α) (n : Nat) (g : Game α)
    (hr : Reachable m g) (hs : g.gameStarted = true) (ho : g.gameOver = false)
    (hw : g.gameWon = false) (hv : ¬ (g.ball.dx = 0 ∧ g.ball.dy = 0))
    (hact : ∃ r c, (g.bricks r c).active = true)
    (hz : ∀ k : Nat, k < n →
      FreeZone (g.ball.x + (k : α) * g.ball.dx + g.ball.dx)
        (g.ball.y + (k : α) * g.ball.dy + g.ball.dy)) :
    Reachable m (flight n g) := by
  induction n with
  | zero =>
    rw [flight_zero]
    exact hr
  | succ n ih =>
    have hrn := ih (fun k hk => hz k (Nat.lt_succ_of_lt hk))
    have hgeo := (reachable_inv m _ hrn).1
    have hzn := hz n (Nat.lt_succ_self n)
    have hbp : beforePaddle (fun _ => 0) (flight n g) = moveStep (flight n g) :=
      beforePaddle_flight (fun _ => 0) (flight n g) hv hgeo.2.2.2.1 hzn
    have hup : updateGame m (g.countdownStartTime + 3000) (fun _ => 0) (flight n g) =
        moveStep (flight n g) := by
      rw [← hbp]
      apply updateGame_quiet m _ _ _ (playing_of_started (flight n g) hs ho hw) hgeo
      · rw [hbp]
        exact hzn.2.2.1
      · rw [hbp]
        have h4 := hzn.2.2.2
        show g.ball.y + (n : α) * g.ball.dy + g.ball.dy + 15 ≤ 440
        linarith
      · exact hact
    rw [flight_succ, ← hup]
    exact Reachable.update _ _ _ hrn

theorem paddleLeft_zero (g : Game α) : paddleLeft 0 g = g := by
  unfold paddleLeft
  simp

theorem paddleLeft_succ (n : Nat) (g : Game α) (hs : g.gameStarted = true)
    (ho : g.gameOver = false) (hw : g.gameWon = false)
    (hx : ((n + 1 : Nat) : α) * 7 ≤ g.paddle.x) :
    paddleLeft (n + 1) g = handleInput [] true false (paddleLeft n g) := by
  have hneg : ¬ g.paddle.x - (n : α) * 7 - 7 < 0 := by
    push_cast at hx
    intro hlt
    linarith
  unfold handleInput movePaddle paddleLeft
  simp only [List.foldl_nil, hs, ho, hw, Bool.not_false, Bool.and_self, if_true,
    Bool.false_eq_true, if_false, if_neg hneg]
  simp only [Nat.cast_add, Nat.cast_one, add_mul, one_mul, sub_add_eq_sub_sub]

/-- From a reachable state of play, `n` calls of `handleInput` with LEFT held
and room to move give the state with the paddle `7 n` further left. -/
theorem reachable_paddleLeft (m : Libm α) (n : Nat) (g : Game α)
    (hr : Reachable m g) (hs : g.gameStarted = true) (ho : g.gameOver = false)
    (hw : g.gameWon = false) (hx : (n : α) * 7 ≤ g.paddle.x) :
    Reachable m (paddleLeft n g) := by
  induction n with
  | zero =>
    rw [paddleLeft_zero]
    exact hr
  | succ n ih =>
    have hxn : (n : α) * 7 ≤ g.paddle.x := by
      push_cast at hx
      linarith
    rw [paddleLeft_succ n g hs ho hw hx]
    exact Reachable.input _ _ _ _ (ih hxn)

theorem approach_firstHit : FirstHit (approachState 320 160 (-5) (-5) : Game α) 4 3 := by
  have h3 : ((3 : Fin NUM_BRICK_COLUMNS).val) = 3 := rfl
  have h4 : ((4 : Fin NUM_BRICK_ROWS).val) = 4 := rfl
  constructor
  · norm_num [brickHit, checkCollision, approachState, mainInit, initializeGame, initBrick, h3, h4]
  · intro r c hlex
    rw [← Bool.not_eq_true]
    intro hh
    unfold brickHit at hh
    simp only [Bool.and_eq_true] at hh
    have hcc := (checkCollision_iff_aux _ _ _ _).1 hh.2
    simp only [approachState, mainInit, initializeGame, initBrick] at hcc
    push_cast at hcc
    obtain ⟨_, a2, _, a4⟩ := hcc
    rcases hlex with h | ⟨rfl, h⟩
    · have hr : r.val ≤ 3 := Nat.le_of_lt_succ (Fin.lt_def.1 h)
      have hr2 : (r.val : α) ≤ 3 := by exact_mod_cast hr
      linarith
    · have hc : c.val ≤ 2 := Nat.le_of_lt_succ (Fin.lt_def.1 h)
      have hc2 : (c.val : α) ≤ 2 := by exact_mod_cast hc
      linarith

theorem approachState_active (x y dx dy : α) :
    ∃ r c, ¬ (r = 4 ∧ c = 3) ∧ ((approachState x y dx dy).bricks r c).active = true :=
  ⟨0, 0, by decide, rfl⟩

theorem approachState_playing (x y dx dy : α) : Playing 3000 (approachState x y dx dy) := by
  norm_num [Playing, elapsed, approachState, mainInit, initializeGame, startupGlobals]

/-- The state `edgeState` is reached by a run of the program: SPACE on the start
screen, 42 frames with LEFT held, a launch with the draw `-5` (so `dx = -5`), 14
ticks up, the tick that destroys brick `(4, 3)`, and 53 ticks down. -/
theorem edgeState_reachable (m : Libm α) : Reachable m (edgeState : Game α) := by
  have h3 : ((3 : Fin NUM_BRICK_COLUMNS).val) = 3 := rfl
  have h4 : ((4 : Fin NUM_BRICK_ROWS).val) = 4 := rfl
  have r0 : Reachable m (approachState 400 240 0 0 : Game α) := by
    have e : paddleLeft 42 (handleInput [Event.keySpace 0] false false (mainInit : Game α)) =
        approachState 400 240 0 0 := by
      simp [paddleLeft, handleInput, handleEvent, movePaddle, mainInit, initializeGame,
        startupGlobals, approachState]
      norm_num
    rw [← e]
    apply reachable_paddleLeft m 42 _
      (Reachable.input _ _ _ _ (Reachable.init 0 _))
    · simp [handleInput, handleEvent, movePaddle, mainInit, initializeGame, startupGlobals]
    · simp [handleInput, handleEvent, movePaddle, mainInit, initializeGame, startupGlobals]
    · simp [handleInput, handleEvent, movePaddle, mainInit, initializeGame, startupGlobals]
    · simp [handleInput, handleEvent, movePaddle, mainInit, initializeGame, startupGlobals]
      norm_num
  have r1 : Reachable m (approachState 395 235 (-5) (-5) : Game α) := by
    have eb : beforePaddle (fun _ => -5) (approachState 400 240 0 0 : Game α) =
        approachState 395 235 (-5) (-5) := by
      simp [beforePaddle, missStep, beforeMiss, wallStep, moveStep, launchStep,
        ensureHorizontalSpeed, BALL_SPEED, approachState, mainInit, initializeGame,
        startupGlobals]
      norm_num
    have e : updateGame m 3000 (fun _ => -5) (approachState 400 240 0 0 : Game α) =
        approachState 395 235 (-5) (-5) := by
      rw [← eb]
      apply updateGame_quiet m 3000 _ _ (approachState_playing _ _ _ _)
        (reachable_inv m _ r0).1
      · rw [eb]
        show (165 : α) ≤ 235
        norm_num
      · rw [eb]
        show (235 : α) + 15 ≤ 440
        norm_num
      · exact ⟨0, 0, rfl⟩
    rw [← e]
    exact Reachable.update _ _ _ r0
  have r2 : Reachable m (approachState 325 165 (-5) (-5) : Game α) := by
    have e : flight 14 (approachState 395 235 (-5) (-5) : Game α) =
        approachState 325 165 (-5) (-5) := by
      simp [flight, approachState]
      norm_num
    rw [← e]
    apply reachable_flight m 14 _ r1 rfl rfl rfl
    · simp [approachState]
    · exact ⟨0, 0, rfl⟩
    · intro k hk
      have hk1 : (k : α) ≤ 13 := by exact_mod_cast Nat.le_of_lt_succ hk
      have hk0 : (0 : α) ≤ (k : α) := Nat.cast_nonneg k
      simp only [approachState, FreeZone]
      refine ⟨?_, ?_, ?_, ?_⟩ <;> linarith
  have r3 : Reachable m
      ({ (edgeState : Game α) with
          ball := { x := 320, y := 160, dx := -5, dy := 5, size := 15 } } : Game α) := by
    have eb : beforePaddle (fun _ => 0) (approachState 325 165 (-5) (-5) : Game α) =
        approachState 320 160 (-5) (-5) := by
      simp [beforePaddle, missStep, beforeMiss, wallStep, moveStep, launchStep, approachState,
        mainInit, initializeGame, startupGlobals]
      norm_num
    have eh : onBrickHit 4 3 (approachState 320 160 (-5) (-5) : Game α) =
        { (edgeState : Game α) with
          ball := { x := 320, y := 160, dx := -5, dy := 5, size := 15 } } := by
      simp [onBrickHit, approachState, edgeState, mainInit, initializeGame, startupGlobals,
        initBrick, h3, h4]
      norm_num
    have hnp : paddleHit (beforePaddle (fun _ => 0)
        (approachState 325 165 (-5) (-5) : Game α)) = false := by
      apply paddleHit_false_of_high _
        (beforePaddle_geom _ _ (reachable_inv m _ r2).1)
      rw [eb]
      show (160 : α) + 15 ≤ 440
      norm_num
    have e : updateGame m 3000 (fun _ => 0) (approachState 325 165 (-5) (-5) : Game α) =
        { (edgeState : Game α) with
          ball := { x := 320, y := 160, dx := -5, dy := 5, size := 15 } } := by
      rw [updateGame_hit m 3000 (fun _ => 0) _ 4 3 (approachState_playing _ _ _ _) hnp
        (eb ▸ approach_firstHit) (approachState_active _ _ _ _), eb, eh]
    rw [← e]
    exact Reachable.update _ _ _ r2
  have e : flight 53 ({ (edgeState : Game α) with
      ball := { x := 320, y := 160, dx := -5, dy := 5, size := 15 } } : Game α) = edgeState := by
    simp [flight, edgeState]
    norm_num
  rw [← e]
  apply reachable_flight m 53 _ r3 rfl rfl rfl
  · simp
  · exact ⟨0, 0, rfl⟩
  · intro k hk
    have hk1 : (k : α) ≤ 52 := by exact_mod_cast Nat.le_of_lt_succ hk
    have hk0 : (0 : α) ≤ (k : α) := Nat.cast_nonneg k
    simp only [FreeZone]
    refine ⟨?_, ?_, ?_, ?_⟩ <;> linarith

/-- What the overlap test gives for a paddle of width 100 and a ball of size
15: `normalizedIntersect` lies strictly between `-1.3` and `1.3`. -/
theorem normalizedIntersect_bound (g : Game α) (hw : g.paddle.width = 100)
    (hs : g.ball.size = 15) (hh : paddleHit g = true) :
    -(13 / 10) < normalizedIntersect g ∧ normalizedIntersect g < 13 / 10 := by
  unfold paddleHit at hh
  obtain ⟨h1, h2, _, _⟩ := (checkCollision_iff_aux _ _ _ _).1 hh
  rw [hs] at h1 h2
  rw [hw] at h2
  unfold normalizedIntersect
  rw [hw]
  have h50 : (100 : α) / 2 = 50 := by norm_num
  rw [h50]
  constructor
  · rw [lt_div_iff₀ (by norm_num : (0 : α) < 50)]
    linarith
  · rw [div_lt_iff₀ (by norm_num : (0 : α) < 50)]
    linarith

/-! ## Binary32 rounding: monotone, and exact on binary32 numbers -/

theorem roundEven_bounds (t : ℚ) : ⌊t⌋ ≤ roundEven t ∧ roundEven t ≤ ⌊t⌋ + 1 := by
  unfold roundEven
  split_ifs <;> constructor <;> omega

theorem roundEven_intCast (n : Int) : roundEven (n : ℚ) = n := by
  unfold roundEven
  simp

theorem roundEven_mono {t u : ℚ} (h : t ≤ u) : roundEven t ≤ roundEven u := by
  have hfl : ⌊t⌋ ≤ ⌊u⌋ := Int.floor_mono h
  rcases lt_or_eq_of_le hfl with hlt | heq
  · have h1 := (roundEven_bounds t).2
    have h2 := (roundEven_bounds u).1
    omega
  · have hfr : Int.fract t ≤ Int.fract u := by
      unfold Int.fract
      rw [heq]
      linarith
    unfold roundEven
    rw [heq]
    split_ifs <;> first | omega | (exfalso; linarith)

theorem roundEven_neg (t : ℚ) : roundEven (-t) = -roundEven t := by
  by_cases hz : Int.fract t = 0
  · have ht : t = (⌊t⌋ : ℚ) := by
      have := Int.self_sub_floor t
      rw [hz] at this
      linarith
    rw [ht, ← Int.cast_neg, roundEven_intCast, roundEven_intCast]
  · have hfl : ⌊-t⌋ = -⌊t⌋ - 1 := by
      rw [Int.floor_neg]
      have : ⌈t⌉ = ⌊t⌋ + 1 := by
        rw [Int.ceil_eq_iff]
        have h0 := Int.fract_nonneg t
        have h1 := Int.fract_lt_one t
        have hpos : 0 < Int.fract t := lt_of_le_of_ne h0 (Ne.symm hz)
        have := Int.self_sub_floor t
        push_cast
        constructor <;> linarith
      omega
    have hfr : Int.fract (-t) = 1 - Int.fract t := by
      have a := Int.self_sub_floor t
      have b := Int.self_sub_floor (-t)
      rw [hfl] at b
      push_cast at b
      linarith
    unfold roundEven
    rw [hfl, hfr]
    split_ifs <;> first | omega | (exfalso; linarith)

theorem ulp32_pos (x : ℚ) : 0 < ulp32 x := by
  unfold ulp32
  exact zpow_pos (by norm_num) _

theorem ulp32_neg (x : ℚ) : ulp32 (-x) = ulp32 x := by
  unfold ulp32
  rw [abs_neg]

theorem round32_neg (x : ℚ) : round32 (-x) = -round32 x := by
  unfold round32
  rw [ulp32_neg, neg_div, roundEven_neg]
  push_cast
  ring

theorem round32_zero : round32 0 = 0 := by
  unfold round32
  rw [zero_div]
  have := roundEven_intCast 0
  simp only [Int.cast_zero] at this
  rw [this]
  simp

theorem round32_nonneg {x : ℚ} (h : 0 ≤ x) : 0 ≤ round32 x := by
  unfold round32
  have h0 : (0 : ℚ) ≤ x / ulp32 x := div_nonneg h (le_of_lt (ulp32_pos x))
  have h1 : roundEven ((0 : Int) : ℚ) ≤ roundEven (x / ulp32 x) := by
    apply roundEven_mono
    simpa using h0
  rw [roundEven_intCast] at h1
  have h2 : (0 : ℚ) ≤ (roundEven (x / ulp32 x) : ℚ) := by exact_mod_cast h1
  exact mul_nonneg h2 (le_of_lt (ulp32_pos x))

theorem two_pow_mul_zpow (k : ℕ) (e : ℤ) :
    (((2 : Int) ^ k : Int) : ℚ) * (2 : ℚ) ^ (e - (k : ℤ)) = (2 : ℚ) ^ e := by
  rw [Int.cast_pow, Int.cast_ofNat, ← zpow_natCast,
    ← zpow_add₀ (by norm_num : (2 : ℚ) ≠ 0)]
  congr 1
  ring

theorem roundEven_mul_le (t u : ℚ) (hu : 0 < u) (n : Int) (h : t ≤ (n : ℚ) * u) :
    (roundEven (t / u) : ℚ) * u ≤ (n : ℚ) * u := by
  have hdiv : t / u ≤ (n : ℚ) := by
    rw [div_le_iff₀ hu]
    exact h
  have hr := roundEven_mono hdiv
  rw [roundEven_intCast] at hr
  have hr2 : (roundEven (t / u) : ℚ) ≤ (n : ℚ) := by exact_mod_cast hr
  exact mul_le_mul_of_nonneg_right hr2 (le_of_lt hu)

theorem le_roundEven_mul (t u : ℚ) (hu : 0 < u) (n : Int) (h : (n : ℚ) * u ≤ t) :
    (n : ℚ) * u ≤ (roundEven (t / u) : ℚ) * u := by
  have hdiv : (n : ℚ) ≤ t / u := by
    rw [le_div_iff₀ hu]
    exact h
  have hr := roundEven_mono hdiv
  rw [roundEven_intCast] at hr
  have hr2 : (n : ℚ) ≤ (roundEven (t / u) : ℚ) := by exact_mod_cast hr
  exact mul_le_mul_of_nonneg_right hr2 (le_of_lt hu)

theorem round32_mono_pos {x y : ℚ} (hx : 0 < x) (hxy : x ≤ y) : round32 x ≤ round32 y := by
  have hy : 0 < y := lt_of_lt_of_le hx hxy
  have hlog : Int.log 2 x ≤ Int.log 2 y := Int.log_mono_right hx hxy
  have hux : ulp32 x = (2 : ℚ) ^ (max (Int.log 2 x) (-126) - 23) := by
    unfold ulp32
    rw [abs_of_pos hx]
  have huy : ulp32 y = (2 : ℚ) ^ (max (Int.log 2 y) (-126) - 23) := by
    unfold ulp32
    rw [abs_of_pos hy]
  have hexy : max (Int.log 2 x) (-126) ≤ max (Int.log 2 y) (-126) :=
    max_le_max hlog (le_refl _)
  rcases eq_or_lt_of_le hexy with heq | hlt
  · have hu : ulp32 y = ulp32 x := by rw [hux, huy, heq]
    unfold round32
    rw [hu]
    have hdiv : x / ulp32 x ≤ y / ulp32 x :=
      div_le_div_of_nonneg_right hxy (le_of_lt (ulp32_pos x))
    have hr := roundEven_mono hdiv
    have hr2 : (roundEven (x / ulp32 x) : ℚ) ≤ (roundEven (y / ulp32 x) : ℚ) := by
      exact_mod_cast hr
    exact mul_le_mul_of_nonneg_right hr2 (le_of_lt (ulp32_pos x))
  · have h2le : (1 : ℚ) ≤ 2 := by norm_num
    have hxlt : x < (2 : ℚ) ^ (max (Int.log 2 x) (-126) + 1) := by
      have h := Int.lt_zpow_succ_log_self (b := 2) (by norm_num) x
      have hle : ((2 : ℕ) : ℚ) ^ (Int.log 2 x + 1) ≤
          (2 : ℚ) ^ (max (Int.log 2 x) (-126) + 1) := by
        push_cast
        exact zpow_le_zpow_right₀ h2le
          (by have := le_max_left (Int.log 2 x) (-126); omega)
      exact lt_of_lt_of_le h hle
    have he24 : (((2 : Int) ^ 24 : Int) : ℚ) * (2 : ℚ) ^ (max (Int.log 2 x) (-126) - 23) =
        (2 : ℚ) ^ (max (Int.log 2 x) (-126) + 1) := by
      have h := two_pow_mul_zpow 24 (max (Int.log 2 x) (-126) + 1)
      have hE : max (Int.log 2 x) (-126) + 1 - ((24 : ℕ) : ℤ) =
          max (Int.log 2 x) (-126) - 23 := by
        push_cast
        ring
      rw [hE] at h
      exact h
    have hupper : round32 x ≤ (2 : ℚ) ^ (max (Int.log 2 x) (-126) + 1) := by
      unfold round32
      rw [hux, ← he24]
      apply roundEven_mul_le _ _ (zpow_pos (by norm_num) _)
      rw [he24]
      exact le_of_lt hxlt
    have hey : max (Int.log 2 y) (-126) = Int.log 2 y := by
      apply max_eq_left
      by_contra hcon
      have hm : max (Int.log 2 y) (-126) = -126 := max_eq_right (le_of_lt (not_le.1 hcon))
      have := le_max_right (Int.log 2 x) (-126)
      omega
    have hyge : (2 : ℚ) ^ (Int.log 2 y) ≤ y := by
      have h := Int.zpow_log_le_self (b := 2) (R := ℚ) (by norm_num) hy
      simpa using h
    have he23 : (((2 : Int) ^ 23 : Int) : ℚ) * (2 : ℚ) ^ (Int.log 2 y - 23) =
        (2 : ℚ) ^ (Int.log 2 y) := by
      have h := two_pow_mul_zpow 23 (Int.log 2 y)
      have hE : Int.log 2 y - ((23 : ℕ) : ℤ) = Int.log 2 y - 23 := by
        push_cast
        ring
      rw [hE] at h
      exact h
    have hlower : (2 : ℚ) ^ (Int.log 2 y) ≤ round32 y := by
      unfold round32
      rw [huy, hey]
      rw [← he23]
      apply le_roundEven_mul _ _ (zpow_pos (by norm_num) _)
      rw [he23]
      exact hyge
    have hmid : (2 : ℚ) ^ (max (Int.log 2 x) (-126) + 1) ≤ (2 : ℚ) ^ (Int.log 2 y) := by
      apply zpow_le_zpow_right₀ h2le
      rw [hey] at hlt
      omega
    exact le_trans hupper (le_trans hmid hlower)

theorem round32_mono {x y : ℚ} (hxy : x ≤ y) : round32 x ≤ round32 y := by
  rcases lt_or_le 0 x with hx | hx
  · exact round32_mono_pos hx hxy
  · have hx0 : round32 x ≤ 0 := by
      have h := round32_nonneg (neg_nonneg.2 hx)
      rw [round32_neg] at h
      linarith
    rcases le_or_lt 0 y with hy | hy
    · exact le_trans hx0 (round32_nonneg hy)
    · have h := round32_mono_pos (neg_pos.2 hy) (neg_le_neg hxy)
      rw [round32_neg, round32_neg] at h
      linarith


theorem round32_eq_of_binade (x : ℚ) (e : ℤ) (he : -126 ≤ e) (h1 : (2 : ℚ) ^ e ≤ |x|)
    (h2 : |x| < (2 : ℚ) ^ (e + 1)) :
    round32 x = (roundEven (x / (2 : ℚ) ^ (e - 23)) : ℚ) * (2 : ℚ) ^ (e - 23) := by
  have hpos : (0 : ℚ) < |x| := lt_of_lt_of_le (zpow_pos (by norm_num) e) h1
  have hlog : Int.log 2 |x| = e := by
    apply le_antisymm
    · have h := (Int.lt_zpow_iff_log_lt (b := 2) (by norm_num) hpos).1
        (by push_cast; exact h2)
      omega
    · exact (Int.zpow_le_iff_le_log (b := 2) (by norm_num) hpos).1 (by push_cast; exact h1)
  have hu : ulp32 x = (2 : ℚ) ^ (e - 23) := by
    unfold ulp32
    rw [hlog, max_eq_left he]
  unfold round32
  rw [hu]

/-- A multiple `n * 2 ^ (e - 23)` lying in the binade of `e` is a binary32
number: rounding leaves it as it is. -/
theorem round32_of_grid (x : ℚ) (e : ℤ) (n : Int) (he : -126 ≤ e) (h1 : (2 : ℚ) ^ e ≤ |x|)
    (h2 : |x| < (2 : ℚ) ^ (e + 1)) (hx : x = (n : ℚ) * (2 : ℚ) ^ (e - 23)) :
    round32 x = x := by
  rw [round32_eq_of_binade x e he h1 h2]
  have hu : (0 : ℚ) < (2 : ℚ) ^ (e - 23) := zpow_pos (by norm_num) _
  have hq : x / (2 : ℚ) ^ (e - 23) = (n : ℚ) := by
    rw [hx, mul_div_assoc, div_self (ne_of_gt hu), mul_one]
  rw [hq, roundEven_intCast, ← hx]

theorem roundEven_half_even (n : Int) (hn : n % 2 = 0) : roundEven ((n : ℚ) + 1 / 2) = n := by
  have hfl : ⌊(n : ℚ) + 1 / 2⌋ = n := by
    rw [Int.floor_eq_iff]
    constructor <;> linarith
  have hfr : Int.fract ((n : ℚ) + 1 / 2) = 1 / 2 := by
    unfold Int.fract
    rw [hfl]
    ring
  unfold roundEven
  rw [hfl, hfr]
  norm_num [hn]

theorem roundEven_above_half (t : ℚ) (n : Int) (h1 : (n : ℚ) + 1 / 2 < t)
    (h2 : t ≤ (n : ℚ) + 1) : roundEven t = n + 1 := by
  rcases eq_or_lt_of_le h2 with heq | hlt
  · rw [heq]
    have := roundEven_intCast (n + 1)
    push_cast at this
    exact this
  · have hfl : ⌊t⌋ = n := by
      rw [Int.floor_eq_iff]
      constructor <;> linarith
    have hfr : Int.fract t = t - n := by
      unfold Int.fract
      rw [hfl]
    unfold roundEven
    rw [hfl, hfr]
    have a : ¬ 2 * (t - (n : ℚ)) < 1 := by
      intro h
      linarith
    have b : 1 < 2 * (t - (n : ℚ)) := by linarith
    rw [if_neg a, if_pos b]

theorem round32_five : round32 5 = 5 :=
  round32_of_grid 5 2 (5 * 2 ^ 21) (by norm_num) (by norm_num) (by norm_num) (by norm_num)

theorem round32_one : round32 1 = 1 :=
  round32_of_grid 1 0 (2 ^ 23) (by norm_num) (by norm_num) (by norm_num) (by norm_num)

theorem round32_ten : round32 10 = 10 :=
  round32_of_grid 10 3 (10 * 2 ^ 20) (by norm_num) (by norm_num) (by norm_num) (by norm_num)

theorem round32_seventy : round32 70 = 70 :=
  round32_of_grid 70 6 (70 * 2 ^ 17) (by norm_num) (by norm_num) (by norm_num) (by norm_num)

/-- The sum `70 + 2 ^ (-18)` lies half way between the binary32 numbers `70` and
`70 + 2 ^ (-17)` and is rounded to `70`, whose last bit is even. -/
theorem round32_tie : round32 (55 + 1 / 2 ^ 18 + 15) = 70 := by
  rw [round32_eq_of_binade _ 6 (by norm_num) (by norm_num [abs_of_pos])
    (by norm_num [abs_of_pos])]
  have ht : ((55 : ℚ) + 1 / 2 ^ 18 + 15) / (2 : ℚ) ^ ((6 : ℤ) - 23) =
      ((9175040 : Int) : ℚ) + 1 / 2 := by
    norm_num
  rw [ht, roundEven_half_even 9175040 (by decide)]
  norm_num

theorem round32_tie_input : round32 (55 + 1 / 2 ^ 18) = 55 + 1 / 2 ^ 18 :=
  round32_of_grid _ 5 (55 * 2 ^ 18 + 1) (by norm_num) (by norm_num [abs_of_pos])
    (by norm_num [abs_of_pos]) (by norm_num)

theorem round32_neg_five : round32 (-5) = -5 := by
  rw [round32_neg, round32_five]

/-- Every value `randomFloat(-5, 5)` can return lies in `[-5, 5]`. -/
theorem randomFloat_range (RAND_MAX : Nat) (r : Nat) (hR : 0 < RAND_MAX) (hr : r ≤ RAND_MAX) :
    -5 ≤ randomFloat RAND_MAX r (-5) 5 ∧ randomFloat RAND_MAX r (-5) 5 ≤ 5 := by
  have ha0 : 0 ≤ round32 (r : ℚ) := round32_nonneg (Nat.cast_nonneg r)
  have hab : round32 (r : ℚ) ≤ round32 (RAND_MAX : ℚ) :=
    round32_mono (by exact_mod_cast hr)
  have hb1 : 1 ≤ round32 (RAND_MAX : ℚ) := by
    have h := round32_mono (x := 1) (y := (RAND_MAX : ℚ)) (by exact_mod_cast hR)
    rw [round32_one] at h
    exact h
  have hbpos : 0 < round32 (RAND_MAX : ℚ) := lt_of_lt_of_le one_pos hb1
  have hq0 : 0 ≤ round32 (r : ℚ) / round32 (RAND_MAX : ℚ) := div_nonneg ha0 (le_of_lt hbpos)
  have hq1 : round32 (r : ℚ) / round32 (RAND_MAX : ℚ) ≤ 1 := (div_le_one hbpos).2 hab
  have hQ0 : 0 ≤ round32 (round32 (r : ℚ) / round32 (RAND_MAX : ℚ)) := round32_nonneg hq0
  have hQ1 : round32 (round32 (r : ℚ) / round32 (RAND_MAX : ℚ)) ≤ 1 := by
    have h := round32_mono hq1
    rw [round32_one] at h
    exact h
  have hd : round32 ((5 : ℚ) - -5) = 10 := by
    rw [show (5 : ℚ) - -5 = 10 by norm_num, round32_ten]
  have hP0 : 0 ≤ round32 (round32 (round32 (r : ℚ) / round32 (RAND_MAX : ℚ)) * 10) :=
    round32_nonneg (mul_nonneg hQ0 (by norm_num))
  have hP1 : round32 (round32 (round32 (r : ℚ) / round32 (RAND_MAX : ℚ)) * 10) ≤ 10 := by
    have h := round32_mono
      (show round32 (round32 (r : ℚ) / round32 (RAND_MAX : ℚ)) * 10 ≤ 10 by linarith)
    rw [round32_ten] at h
    exact h
  unfold randomFloat
  rw [hd]
  constructor
  · have h := round32_mono
      (show (-5 : ℚ) ≤ -5 + round32 (round32 (round32 (r : ℚ) / round32 (RAND_MAX : ℚ)) * 10)
        by linarith)
    rw [round32_neg_five] at h
    exact h
  · have h := round32_mono
      (show -5 + round32 (round32 (round32 (r : ℚ) / round32 (RAND_MAX : ℚ)) * 10) ≤ (5 : ℚ)
        by linarith)
    rw [round32_five] at h
    exact h

/-- With `RAND_MAX = 2 ^ 31 - 1` and `rand() = 2 ^ 30` the conversion of `RAND_MAX`
rounds up to `2 ^ 31`, the quotient is exactly one half and `randomFloat(-5, 5)`
returns `0`. -/
theorem randomFloat_half : randomFloat 2147483647 1073741824 (-5) 5 = 0 := by
  have ha : round32 ((1073741824 : ℕ) : ℚ) = 1073741824 := by
    push_cast
    exact round32_of_grid _ 30 (2 ^ 23) (by norm_num) (by norm_num) (by norm_num)
      (by norm_num)
  have hb : round32 ((2147483647 : ℕ) : ℚ) = 2147483648 := by
    push_cast
    rw [round32_eq_of_binade _ 30 (by norm_num) (by norm_num) (by norm_num)]
    rw [roundEven_above_half _ 16777215 (by norm_num) (by norm_num)]
    norm_num
  have hq : round32 ((1073741824 : ℚ) / 2147483648) = 1 / 2 := by
    rw [show (1073741824 : ℚ) / 2147483648 = 1 / 2 by norm_num]
    exact round32_of_grid _ (-1) (2 ^ 23) (by norm_num) (by norm_num [abs_of_pos])
      (by norm_num [abs_of_pos]) (by norm_num)
  unfold randomFloat
  rw [ha, hb, hq, show (5 : ℚ) - -5 = 10 by norm_num, round32_ten,
    show (1 : ℚ) / 2 * 10 = 5 by norm_num, round32_five,
    show (-5 : ℚ) + 5 = 0 by norm_num, round32_zero]

theorem checkCollision32_iff (obj : GameObject ℚ) (x y size : ℚ) :
    checkCollision32 obj x y size = true ↔
      (round32 (x + size) > obj.x ∧ round32 (x - size) < round32 (obj.x + obj.width) ∧
        round32 (y + size) > obj.y ∧ round32 (y - size) < round32 (obj.y + obj.height)) := by
  unfold checkCollision32
  simp only [Bool.and_eq_true, decide_eq_true_eq]
  tauto

/-! ## The tick after a paddle hit, and a fact about squares -/

/-- C1: in a physics tick, with `c` equal to 0 if the paddle was hit in this
tick and to the prior `consecutiveHits` otherwise: if a brick is destroyed then
the score grows by `10 + 5 * c` and `consecutiveHits` becomes `c + 1`; if none is
destroyed the score is unchanged and `consecutiveHits` becomes `c`. Hence the
score does not decrease when `consecutiveHits` is not negative. -/
theorem updateGame_score (m : Libm α) (currentTime : Nat)
    (draw : Nat → α) (g : Game α) (h : Playing currentTime g) :
    (Destroyed g (updateGame m currentTime draw g) →
        (updateGame m currentTime draw g).score =
            g.score + 10 +
              5 * (if paddleHit (beforePaddle draw g) then 0 else g.consecutiveHits) ∧
          (updateGame m currentTime draw g).consecutiveHits =
            (if paddleHit (beforePaddle draw g) then 0 else g.consecutiveHits) + 1) ∧
      (¬ Destroyed g (updateGame m currentTime draw g) →
        (updateGame m currentTime draw g).score = g.score ∧
          (updateGame m currentTime draw g).consecutiveHits =
            (if paddleHit (beforePaddle draw g) then 0 else g.consecutiveHits)) ∧
      (0 ≤ g.consecutiveHits → g.score ≤ (updateGame m currentTime draw g).score) := by
  rw [updateGame_playing m currentTime draw g h]
  rcases physicsTick_cases m draw g with ⟨hno, htick⟩ | ⟨r, c, hfirst, htick⟩
  · have hnd : ¬ Destroyed g (physicsTick m draw g) := by
      rintro ⟨r, c, h1, h2⟩
      rw [htick] at h2
      simp only [winStep_bricks, beforeBricks_bricks] at h2
      rw [h1] at h2
      exact Bool.noConfusion h2
    refine ⟨fun hd => absurd hd hnd, fun _ => ?_, fun _ => ?_⟩
    · rw [htick]
      simp only [winStep_score, winStep_consecutiveHits, beforeBricks_score,
        beforeBricks_consecutiveHits, and_self]
    · rw [htick]
      simp only [winStep_score, beforeBricks_score, le_refl]
  · have hd : Destroyed g (physicsTick m draw g) := by
      refine ⟨r, c, ?_, ?_⟩
      · have := brickHit_active _ r c hfirst.1
        simpa using this
      · rw [htick]
        simp
    have hs : (physicsTick m draw g).score =
        g.score + 10 +
          5 * (if paddleHit (beforePaddle draw g) then 0 else g.consecutiveHits) := by
      rw [htick]
      simp only [winStep_score, onBrickHit_score, beforeBricks_score,
        beforeBricks_consecutiveHits]
      ring
    have hc : (physicsTick m draw g).consecutiveHits =
        (if paddleHit (beforePaddle draw g) then 0 else g.consecutiveHits) + 1 := by
      rw [htick]
      simp only [winStep_consecutiveHits, onBrickHit_consecutiveHits,
        beforeBricks_consecutiveHits]
    refine ⟨fun _ => ⟨hs, hc⟩, fun hnd => absurd hd hnd, fun h0 => ?_⟩
    rw [hs]
    split_ifs <;> omega

theorem updateGame_score_witness :
    Playing 5000 sampleState ∧ 0 ≤ sampleState.consecutiveHits ∧
      sampleState.score ≤ (updateGame sampleLibm 5000 (fun _ => 0) sampleState).score :=
  ⟨sampleState_playing, by decide,
    (updateGame_score sampleLibm 5000 (fun _ => 0) sampleState sampleState_playing).2.2
      (by decide)⟩

/-! ## C2: lives and gameOver -/

/-- C2: in every reachable state `gameOver` holds exactly when `lives` is 0, and
`lives` is between 0 and 3; a tick that sets `gameOver` starts with one life and
ends with exactly zero. -/
theorem reachable_lives (m : Libm α) (g : Game α)
    (h : Reachable m g) :
    (g.gameOver = true ↔ g.lives = 0) ∧ 0 ≤ g.lives ∧ g.lives ≤ 3 ∧
      ∀ (currentTime : Nat) (draw : Nat → α), g.gameOver = false →
        (updateGame m currentTime draw g).gameOver = true →
        g.lives = 1 ∧ (updateGame m currentTime draw g).lives = 0 := by
  obtain ⟨hg, h0, h3, hov, _, _, _⟩ := reachable_inv m g h
  refine ⟨hov, h0, h3, fun currentTime draw ho hover => ?_⟩
  by_cases hp : Playing currentTime g
  · rw [updateGame_playing m currentTime draw g hp] at hover ⊢
    obtain ⟨h1, h2, _, _⟩ := physicsTick_lastLife m draw g hg ho hover
    have hne : g.lives ≠ 0 := fun hz => by
      rw [hov.2 hz] at ho
      exact Bool.noConfusion ho
    constructor
    · omega
    · rw [h2]
      omega
  · rw [updateGame_not_playing m currentTime draw g hp, ho] at hover
    exact Bool.noConfusion hover

theorem reachable_lives_witness :
    Reachable sampleLibm
        (updateGame sampleLibm 5000 (fun _ => 0)
          (handleInput [Event.keySpace 0] false false (mainInit : Game ℚ))) ∧
      0 ≤ (updateGame sampleLibm 5000 (fun _ => 0)
          (handleInput [Event.keySpace 0] false false (mainInit : Game ℚ))).lives :=
  ⟨Reachable.update _ _ _ (Reachable.input _ _ _ _ (Reachable.init 0 _)),
    (reachable_lives sampleLibm _
      (Reachable.update _ _ _ (Reachable.input _ _ _ _ (Reachable.init 0 _)))).2.1⟩

/-! ## C3: gameWon and the grid -/

/-- C3: `allBricksBroken` is true exactly when no brick of the grid is active;
after every physics tick `gameWon` is true exactly when all bricks are inactive;
a tick that destroys the only active brick sets `gameWon` in that tick; and in
every reachable state `gameWon` holds exactly when every brick is inactive. -/
theorem gameWon_iff_all_inactive (m : Libm α) (currentTime : Nat)
    (draw : Nat → α) (g : Game α) :
    (allBricksBroken g = true ↔ ∀ r c, (g.bricks r c).active = false) ∧
      (Playing currentTime g →
        ((updateGame m currentTime draw g).gameWon = true ↔
          ∀ r c, ((updateGame m currentTime draw g).bricks r c).active = false)) ∧
      (Playing currentTime g →
        ∀ r c, FirstHit (beforeBricks m draw g) r c →
          (∀ r2 c2, ¬ (r2 = r ∧ c2 = c) → (g.bricks r2 c2).active = false) →
          (updateGame m currentTime draw g).gameWon = true) ∧
      (Reachable m g →
        (g.gameWon = true ↔ ∀ r c, (g.bricks r c).active = false)) := by
  refine ⟨allBricksBroken_iff g, fun hp => ?_, fun hp r c hf hlast => ?_, fun hr => ?_⟩
  · rw [updateGame_playing m currentTime draw g hp]
    exact physicsTick_gameWon m draw g hp.2.2.1
  · rw [updateGame_playing m currentTime draw g hp]
    rw [physicsTick_gameWon m draw g hp.2.2.1]
    intro r2 c2
    by_cases hrc : r2 = r ∧ c2 = c
    · obtain ⟨rfl, rfl⟩ := hrc
      rw [physicsTick_bricks_first m draw g r2 c2 hf]
    · have hnf : ¬ FirstHit (beforeBricks m draw g) r2 c2 := fun hf2 =>
        hrc (firstHit_unique _ _ _ _ _ hf2 hf)
      rw [physicsTick_bricks_other m draw g r2 c2 hnf]
      exact hlast r2 c2 hrc
  · exact (reachable_inv m g hr).2.2.2.2.1

theorem gameWon_iff_all_inactive_witness :
    Playing 5000 sampleState ∧
      ((updateGame sampleLibm 5000 (fun _ => 0) sampleState).gameWon = true ↔
        ∀ r c, ((updateGame sampleLibm 5000 (fun _ => 0) sampleState).bricks r c).active
          = false) :=
  ⟨sampleState_playing,
    (gameWon_iff_all_inactive sampleLibm 5000 (fun _ => 0) sampleState).2.1
      sampleState_playing⟩

/-! ## C4: the brick grid -/

/-- C4: in a physics tick the grid changes in exactly one place: the first
brick in row-major order that is active and overlaps the ball (as it is when
the scan starts) becomes inactive, and every other brick is left as it was; if
there is no such brick the grid is unchanged. So at most one brick changes per
tick, and an inactive brick stays inactive. -/
theorem updateGame_bricks (m : Libm α) (currentTime : Nat)
    (draw : Nat → α) (g : Game α) (h : Playing currentTime g) :
    (∀ r c, FirstHit (beforeBricks m draw g) r c →
        (updateGame m currentTime draw g).bricks r c =
          { g.bricks r c with active := false }) ∧
      (∀ r c, ¬ FirstHit (beforeBricks m draw g) r c →
        (updateGame m currentTime draw g).bricks r c = g.bricks r c) ∧
      ((∀ r c, ¬ FirstHit (beforeBricks m draw g) r c) →
        (updateGame m currentTime draw g).bricks = g.bricks) ∧
      (∀ r c r2 c2,
        (updateGame m currentTime draw g).bricks r c ≠ g.bricks r c →
        (updateGame m currentTime draw g).bricks r2 c2 ≠ g.bricks r2 c2 →
        r = r2 ∧ c = c2) ∧
      (∀ r c, (g.bricks r c).active = false →
        ((updateGame m currentTime draw g).bricks r c).active = false) := by
  rw [updateGame_playing m currentTime draw g h]
  have hother := physicsTick_bricks_other m draw g
  have hsame := physicsTick_bricks_first m draw g
  refine ⟨hsame, hother, fun hnone => ?_, fun r c r2 c2 h1 h2 => ?_, fun r c hin => ?_⟩
  · funext r c
    exact hother r c (hnone r c)
  · have hf1 : FirstHit (beforeBricks m draw g) r c := by
      by_contra hcon
      exact h1 (hother r c hcon)
    have hf2 : FirstHit (beforeBricks m draw g) r2 c2 := by
      by_contra hcon
      exact h2 (hother r2 c2 hcon)
    exact firstHit_unique _ _ _ _ _ hf1 hf2
  · by_cases hf : FirstHit (beforeBricks m draw g) r c
    · rw [hsame r c hf]
    · rw [hother r c hf]
      exact hin

theorem updateGame_bricks_witness :
    Playing 5000 sampleState ∧
      ∀ r c, (sampleState.bricks r c).active = false →
        ((updateGame sampleLibm 5000 (fun _ => 0) sampleState).bricks r c).active = false :=
  ⟨sampleState_playing,
    (updateGame_bricks sampleLibm 5000 (fun _ => 0) sampleState sampleState_playing).2.2.2.2⟩

/-! ## C5: launch velocity -/

/-- C5: for random draws in `[-BALL_SPEED, BALL_SPEED] = [-5, 5]` and with the
layout of `initializeGame`, the velocity at the end of a tick that launches the
ball from rest at the centre, and of a tick that relaunches it after a bottom
miss with lives remaining, comes from the draw `r` of that launch as the
specification says: `dx` is `r` unless `|r| < 2.5`, in which case it is `2.5` for
`r > 0` and `-2.5` otherwise, `2.5 ≤ |dx| ≤ 5`, and `dy = -5`. -/
theorem launch_velocity (m : Libm α) (currentTime : Nat)
    (draw : Nat → α) (g : Game α) (hdraw : ∀ k, -5 ≤ draw k ∧ draw k ≤ 5)
    (hg : StdGeometry g) (hp : Playing currentTime g) :
    ((g.ball.dx = 0 ∧ g.ball.dy = 0 ∧ g.ball.x = 400 ∧ g.ball.y = 240) →
        LaunchedFrom (draw 0) (updateGame m currentTime draw g).ball) ∧
      (((beforeMiss draw g).ball.y + (beforeMiss draw g).ball.size > 480 ∧
          1 < g.lives) →
        LaunchedFrom (draw (launchStep draw g).2) (updateGame m currentTime draw g).ball) := by
  rw [updateGame_playing m currentTime draw g hp]
  constructor
  · rintro ⟨hdx, hdy, hx, hy⟩
    obtain ⟨r1, r2⟩ := hdraw 0
    have hb := beforePaddle_first_launch draw g r1 r2 hg hdx hdy hx hy
    have hq : (physicsTick m draw g).ball = (beforePaddle draw g).ball := by
      apply physicsTick_quiet m draw g hg
      · rw [hb]
        simp only [BALL_SPEED]
        norm_num
      · rw [hb]
        simp only [BALL_SPEED]
        norm_num
    apply launchedFrom_of _ _ r1 r2
    · rw [hq, hb]
    · rw [hq, hb]
  · rintro ⟨hmiss, hl⟩
    obtain ⟨r1, r2⟩ := hdraw (launchStep draw g).2
    rw [(beforeMiss_frame draw g).2.2.2.2.2] at hmiss
    obtain ⟨hb, _, _⟩ := beforePaddle_relaunch draw g hmiss hl
    have hq : (physicsTick m draw g).ball = (beforePaddle draw g).ball := by
      apply physicsTick_quiet m draw g hg
      · rw [hb]
        norm_num
      · rw [hb]
        norm_num
    apply launchedFrom_of _ _ r1 r2
    · rw [hq, hb]
    · rw [hq, hb]

theorem launch_velocity_witness :
    ((∀ k : Nat, -5 ≤ (fun _ => randomFloat 2147483647 1073741824 (-5) 5) k ∧
          (fun _ => randomFloat 2147483647 1073741824 (-5) 5) k ≤ 5) ∧
        StdGeometry launchState ∧ Playing 5000 launchState ∧
        (launchState.ball.dx = 0 ∧ launchState.ball.dy = 0 ∧ launchState.ball.x = 400 ∧
          launchState.ball.y = 240) ∧
        LaunchedFrom (randomFloat 2147483647 1073741824 (-5) 5)
          (updateGame sampleLibm 5000 (fun _ => randomFloat 2147483647 1073741824 (-5) 5)
            launchState).ball ∧
        (updateGame sampleLibm 5000 (fun _ => randomFloat 2147483647 1073741824 (-5) 5)
            launchState).ball.dx = -(5 / 2)) ∧
      ((∀ k : Nat, (-5 : ℚ) ≤ (fun _ => -1) k ∧ (fun _ => (-1 : ℚ)) k ≤ 5) ∧
        StdGeometry missState ∧ Playing 5000 missState ∧
        ((beforeMiss (fun _ => -1) missState).ball.y +
            (beforeMiss (fun _ => -1) missState).ball.size > 480 ∧
          1 < missState.lives) ∧
        LaunchedFrom (-1) (updateGame sampleLibm 5000 (fun _ => -1) missState).ball) :=
  have hd0 : ∀ k : Nat, -5 ≤ (fun _ => randomFloat 2147483647 1073741824 (-5) 5) k ∧
      (fun _ => randomFloat 2147483647 1073741824 (-5) 5) k ≤ 5 :=
    fun _ => randomFloat_range 2147483647 1073741824 (by norm_num) (by norm_num)
  have hd : ∀ k : Nat, (-5 : ℚ) ≤ (fun _ => -1) k ∧ (fun _ => (-1 : ℚ)) k ≤ 5 :=
    fun _ => by norm_num
  have hgl : StdGeometry launchState :=
    stdGeometry_congr (mainInit : Game ℚ) _ rfl rfl rfl rfl (fun _ _ => ⟨rfl, rfl, rfl, rfl⟩)
      (initializeGame_geom _ _)
  have hgm : StdGeometry missState :=
    stdGeometry_congr (mainInit : Game ℚ) _ rfl rfl rfl rfl (fun _ _ => ⟨rfl, rfl, rfl, rfl⟩)
      (initializeGame_geom _ _)
  have hpl : Playing 5000 launchState := by
    norm_num [Playing, elapsed, launchState, mainInit, initializeGame, startupGlobals]
  have hpm : Playing 5000 missState := by
    norm_num [Playing, elapsed, missState, mainInit, initializeGame, startupGlobals]
  have hcl : launchState.ball.dx = 0 ∧ launchState.ball.dy = 0 ∧ launchState.ball.x = 400 ∧
      launchState.ball.y = 240 := by
    norm_num [launchState, mainInit, initializeGame, startupGlobals]
  have hcm : (beforeMiss (fun _ => -1) missState).ball.y +
      (beforeMiss (fun _ => -1) missState).ball.size > 480 ∧ 1 < missState.lives := by
    norm_num [beforeMiss, wallStep, moveStep, launchStep, missState, mainInit, initializeGame,
      startupGlobals]
  have hlaunch := (launch_velocity sampleLibm 5000
    (fun _ => randomFloat 2147483647 1073741824 (-5) 5) launchState hd0 hgl hpl).1 hcl
  have hdx : (updateGame sampleLibm 5000 (fun _ => randomFloat 2147483647 1073741824 (-5) 5)
      launchState).ball.dx = -(5 / 2) :=
    hlaunch.2.2.1.trans (by rw [randomFloat_half]; norm_num)
  ⟨⟨hd0, hgl, hpl, hcl, hlaunch, hdx⟩,
    ⟨hd, hgm, hpm, hcm, (launch_velocity sampleLibm 5000 (fun _ => -1) missState hd hgm hpm).2 hcm⟩⟩

/-! ## C6: checkCollision -/

/-- C6 as it holds of the code: at the brick `(0, 70, 80, 20)` with the ball at
`(40, 55 + 2 ^ (-18))` and size 15, all binary32 numbers, the four inequalities of
the claim hold, but the sum `y + size` is rounded to `70` and `checkCollision`
returns false. -/
theorem checkCollision_tie :
    round32 40 = 40 ∧ round32 (55 + 1 / 2 ^ 18) = 55 + 1 / 2 ^ 18 ∧ round32 15 = 15 ∧
      ((40 : ℚ) + 15 > 0 ∧ (40 : ℚ) - 15 < 0 + 80 ∧
        (55 + 1 / 2 ^ 18 : ℚ) + 15 > 70 ∧ (55 + 1 / 2 ^ 18 : ℚ) - 15 < 70 + 20) ∧
      round32 (55 + 1 / 2 ^ 18 + 15) = 70 ∧
      checkCollision32
        ({ x := 0, y := 70, width := 80, height := 20, active := true } : GameObject ℚ)
        40 (55 + 1 / 2 ^ 18) 15 = false := by
  refine ⟨?_, round32_tie_input, ?_, by norm_num, round32_tie, ?_⟩
  · exact round32_of_grid 40 5 (40 * 2 ^ 18) (by norm_num) (by norm_num) (by norm_num)
      (by norm_num)
  · exact round32_of_grid 15 3 (15 * 2 ^ 20) (by norm_num) (by norm_num) (by norm_num)
      (by norm_num)
  · unfold checkCollision32
    simp only [round32_tie]
    simp

/-- C6, amended: for a rectangle whose `x` and `y` are binary32 numbers,
`checkCollision` is true exactly when the four inequalities hold for the sums
and differences as rounded to binary32; when it is true the four inequalities
hold exactly; hence it is false whenever the square of half-side `size` centred
at `(x, y)` lies strictly outside the rectangle on the x axis or on the y axis;
and it returns a value on every input. -/
theorem checkCollision32_spec (obj : GameObject ℚ) (x y size : ℚ)
    (hx : round32 obj.x = obj.x) (hy : round32 obj.y = obj.y) :
    (checkCollision32 obj x y size = true ↔
        (round32 (x + size) > obj.x ∧ round32 (x - size) < round32 (obj.x + obj.width) ∧
          round32 (y + size) > obj.y ∧
          round32 (y - size) < round32 (obj.y + obj.height))) ∧
      (checkCollision32 obj x y size = true →
        (x + size > obj.x ∧ x - size < obj.x + obj.width ∧
          y + size > obj.y ∧ y - size < obj.y + obj.height)) ∧
      ((x + size < obj.x ∨ x - size > obj.x + obj.width ∨
          y + size < obj.y ∨ y - size > obj.y + obj.height) →
        checkCollision32 obj x y size = false) ∧
      (checkCollision32 obj x y size = true ∨ checkCollision32 obj x y size = false) := by
  have key := checkCollision32_iff obj x y size
  have honly : checkCollision32 obj x y size = true →
      (x + size > obj.x ∧ x - size < obj.x + obj.width ∧
        y + size > obj.y ∧ y - size < obj.y + obj.height) := by
    intro h
    obtain ⟨h1, h2, h3, h4⟩ := key.1 h
    refine ⟨?_, ?_, ?_, ?_⟩
    · by_contra hc
      have := round32_mono (not_lt.1 hc)
      rw [hx] at this
      exact absurd h1 (not_lt.2 this)
    · by_contra hc
      exact absurd h2 (not_lt.2 (round32_mono (not_lt.1 hc)))
    · by_contra hc
      have := round32_mono (not_lt.1 hc)
      rw [hy] at this
      exact absurd h3 (not_lt.2 this)
    · by_contra hc
      exact absurd h4 (not_lt.2 (round32_mono (not_lt.1 hc)))
  refine ⟨key, honly, fun h => ?_, ?_⟩
  · rw [← Bool.not_eq_true]
    intro ht
    obtain ⟨h1, h2, h3, h4⟩ := honly ht
    rcases h with h | h | h | h
    · exact lt_asymm h h1
    · exact lt_asymm h h2
    · exact lt_asymm h h3
    · exact lt_asymm h h4
  · cases checkCollision32 obj x y size
    · exact Or.inr rfl
    · exact Or.inl rfl

theorem checkCollision32_spec_witness :
    round32 (0 : ℚ) = 0 ∧ round32 (70 : ℚ) = 70 ∧ ((200 : ℚ) - 15 > 0 + 80) ∧
      checkCollision32
        ({ x := 0, y := 70, width := 80, height := 20, active := true } : GameObject ℚ)
        200 60 15 = false :=
  ⟨round32_zero, round32_seventy, by norm_num,
    (checkCollision32_spec
      ({ x := 0, y := 70, width := 80, height := 20, active := true } : GameObject ℚ)
      200 60 15 round32_zero round32_seventy).2.2.1 (Or.inr (Or.inl (by norm_num)))⟩

/-! ## C7: restart -/

/-- C7: when the game is started and over or won, a SPACE key press clears
`firstGame` and runs `initializeGame`: 3 lives, score 0, streak 0, neither over
nor won, started with the countdown beginning at the current time, paddle at
x = 350, ball at (400, 240) at rest, all bricks active. A `handleInput` call
with just this event and no movement key held ends in that state. -/
theorem restart_state (ticks : Nat) (g : Game α) (hs : g.gameStarted = true)
    (ho : g.gameOver = true ∨ g.gameWon = true) :
    handleEvent (Event.keySpace ticks) g = initializeGame ticks { g with firstGame := false } ∧
      (handleEvent (Event.keySpace ticks) g).firstGame = false ∧
      (handleEvent (Event.keySpace ticks) g).lives = 3 ∧
      (handleEvent (Event.keySpace ticks) g).score = 0 ∧
      (handleEvent (Event.keySpace ticks) g).consecutiveHits = 0 ∧
      (handleEvent (Event.keySpace ticks) g).gameOver = false ∧
      (handleEvent (Event.keySpace ticks) g).gameWon = false ∧
      (handleEvent (Event.keySpace ticks) g).gameStarted = true ∧
      (handleEvent (Event.keySpace ticks) g).countdownStartTime = ticks ∧
      PhaseHolds ticks (handleEvent (Event.keySpace ticks) g) Phase.Countdown ∧
      (handleEvent (Event.keySpace ticks) g).paddle.x = 350 ∧
      (handleEvent (Event.keySpace ticks) g).ball.x = 400 ∧
      (handleEvent (Event.keySpace ticks) g).ball.y = 240 ∧
      (handleEvent (Event.keySpace ticks) g).ball.dx = 0 ∧
      (handleEvent (Event.keySpace ticks) g).ball.dy = 0 ∧
      (∀ r c, ((handleEvent (Event.keySpace ticks) g).bricks r c).active = true) ∧
      handleInput [Event.keySpace ticks] false false g =
        handleEvent (Event.keySpace ticks) g := by
  have hev : handleEvent (Event.keySpace ticks) g =
      initializeGame ticks { g with firstGame := false } := by
    unfold handleEvent
    rcases ho with ho | ho <;> simp [hs, ho]
  have hmove : handleInput [Event.keySpace ticks] false false g =
      handleEvent (Event.keySpace ticks) g := by
    unfold handleInput movePaddle
    simp
  refine ⟨hev, ?_, ?_, ?_, ?_, ?_, ?_, ?_, ?_, ?_, ?_, ?_, ?_, ?_, ?_, ?_, hmove⟩
  all_goals rw [hev]
  all_goals simp [initializeGame, initBrick, PhaseHolds, elapsed]
  all_goals norm_num

theorem restart_state_witness :
    overState.gameStarted = true ∧ (overState.gameOver = true ∨ overState.gameWon = true) ∧
      (handleEvent (Event.keySpace 7000) overState).lives = 3 ∧
      (handleEvent (Event.keySpace 7000) overState).paddle.x = 350 :=
  ⟨rfl, Or.inl rfl,
    (restart_state 7000 overState rfl (Or.inl rfl)).2.2.1,
    (restart_state 7000 overState rfl (Or.inl rfl)).2.2.2.2.2.2.2.2.2.2.1⟩

/-! ## C8: phases -/

/-- C8: in every reachable state `gameOver` and `gameWon` are not both true and
exactly one of the five phases holds; and a tick that takes the last life
destroys no brick. -/
theorem reachable_phase (m : Libm α) (g : Game α)
    (h : Reachable m g) :
    ¬ (g.gameOver = true ∧ g.gameWon = true) ∧
      (∀ currentTime : Nat, ∃! p : Phase, PhaseHolds currentTime g p) ∧
      ∀ (currentTime : Nat) (draw : Nat → α), g.gameOver = false →
        (updateGame m currentTime draw g).gameOver = true →
        ¬ Destroyed g (updateGame m currentTime draw g) := by
  obtain ⟨hg, _, _, _, _, hex, hst⟩ := reachable_inv m g h
  refine ⟨hex, fun currentTime => ?_, fun currentTime draw ho hover => ?_⟩
  · cases hs : g.gameStarted
    · have ho : g.gameOver = false := by
        cases hgo : g.gameOver
        · rfl
        · rw [hst (Or.inl hgo)] at hs
          exact Bool.noConfusion hs
      have hw : g.gameWon = false := by
        cases hgw : g.gameWon
        · rfl
        · rw [hst (Or.inr hgw)] at hs
          exact Bool.noConfusion hs
      refine ⟨Phase.NotStarted, hs, fun p hp => ?_⟩
      cases p <;> simp_all [PhaseHolds, Playing]
    · cases ho : g.gameOver
      · cases hw : g.gameWon
        · by_cases he : elapsed currentTime g < COUNTDOWN_DURATION
          · refine ⟨Phase.Countdown, ⟨hs, ho, hw, he⟩, fun p hp => ?_⟩
            cases p <;> simp_all [PhaseHolds, Playing]
          · refine ⟨Phase.Playing, ⟨hs, ho, hw, he⟩, fun p hp => ?_⟩
            cases p <;> simp_all [PhaseHolds, Playing]
            omega
        · refine ⟨Phase.Won, hw, fun p hp => ?_⟩
          cases p <;> simp_all [PhaseHolds, Playing]
      · have hw : g.gameWon = false := by
          cases hgw : g.gameWon
          · rfl
          · exact absurd ⟨ho, hgw⟩ hex
        refine ⟨Phase.GameOver, ho, fun p hp => ?_⟩
        cases p <;> simp_all [PhaseHolds, Playing]
  · rintro ⟨r, c, h1, h2⟩
    by_cases hp : Playing currentTime g
    · rw [updateGame_playing m currentTime draw g hp] at hover h2
      obtain ⟨_, _, _, hbr⟩ := physicsTick_lastLife m draw g hg ho hover
      rw [hbr, h1] at h2
      exact Bool.noConfusion h2
    · rw [updateGame_not_playing m currentTime draw g hp, h1] at h2
      exact Bool.noConfusion h2

theorem reachable_phase_witness :
    Reachable sampleLibm
        (updateGame sampleLibm 5000 (fun _ => 0)
          (handleInput [Event.keySpace 0, Event.other] true false (mainInit : Game ℚ))) ∧
      ∃! p : Phase, PhaseHolds 5016
        (updateGame sampleLibm 5000 (fun _ => 0)
          (handleInput [Event.keySpace 0, Event.other] true false (mainInit : Game ℚ))) p :=
  ⟨Reachable.update _ _ _ (Reachable.input _ _ _ _ (Reachable.init 0 _)),
    (reachable_phase sampleLibm _
      (Reachable.update _ _ _ (Reachable.input _ _ _ _ (Reachable.init 0 _)))).2.1 5016⟩

/-! ## C9: the last life -/

/-- C9: in a physics tick that starts with one life and in which the ball is
below the bottom edge after the position update and the wall tests, the tick
ends with `lives = 0` and `gameOver` set; the bottom block changes nothing but
these two, so the paddle keeps its x and the ball its position and velocity;
with the layout of `initializeGame` the ball does not end at height 240; and the
resulting state depends on no random draw other than the one of a launch made
earlier in this tick. -/
theorem last_life_miss (m : Libm α) (currentTime : Nat)
    (draw : Nat → α) (g : Game α) (hp : Playing currentTime g) (hl : g.lives = 1)
    (hmiss : (beforeMiss draw g).ball.y + (beforeMiss draw g).ball.size >
      480) :
    (updateGame m currentTime draw g).lives = 0 ∧
      (updateGame m currentTime draw g).gameOver = true ∧
      (updateGame m currentTime draw g).paddle.x = g.paddle.x ∧
      beforePaddle draw g =
        { beforeMiss draw g with lives := 0, gameOver := true } ∧
      (StdGeometry g → (updateGame m currentTime draw g).ball.y ≠ 240) ∧
      (∀ draw2 : Nat → α, (g.ball.dx = 0 ∧ g.ball.dy = 0 → draw2 0 = draw 0) →
        updateGame m currentTime draw2 g = updateGame m currentTime draw g) := by
  have hbp := beforePaddle_lastLife draw g hl hmiss
  obtain ⟨hfl, hfo, _, hfp⟩ := physicsTick_frame m draw g
  obtain ⟨hbpad, _, hbo, _, _, hbs⟩ := beforeMiss_frame draw g
  have hover : (physicsTick m draw g).gameOver = true := by
    rw [hfo, hbp]
  refine ⟨?_, ?_, ?_, hbp, fun hg => ?_, fun draw2 h2 => ?_⟩
  · rw [updateGame_playing m currentTime draw g hp, hfl, hbp]
  · rw [updateGame_playing m currentTime draw g hp, hover]
  · rw [updateGame_playing m currentTime draw g hp, hfp, hbp]
    dsimp only
    rw [hbpad]
  · rw [updateGame_playing m currentTime draw g hp]
    obtain ⟨_, _, hno, _⟩ := physicsTick_lastLife m draw g hg hp.2.1 hover
    obtain ⟨gy, _, _, gs, _⟩ := hg
    rcases physicsTick_cases m draw g with ⟨_, htick⟩ | ⟨r0, c0, hf, _⟩
    · rw [htick, winStep_ball]
      unfold beforeBricks
      rw [paddleStep_ball_y, hbp]
      dsimp only
      rw [hbs, gs] at hmiss
      rw [hbpad, hbs, gy, gs]
      split_ifs
      · norm_num
      · intro h240
        rw [h240] at hmiss
        norm_num at hmiss
    · exact absurd hf.1 (by simp [hno r0 c0])
  · have hls := launchStep_congr draw draw2 g h2
    have hbm : beforeMiss draw2 g = beforeMiss draw g := by
      unfold beforeMiss
      rw [hls]
    have hmiss2 := hmiss
    rw [← hbm] at hmiss2
    have hbp2 := beforePaddle_lastLife draw2 g hl hmiss2
    have hpp : beforePaddle draw2 g = beforePaddle draw g := by
      rw [hbp2, hbp, hbm]
    rw [updateGame_playing m currentTime draw g hp,
      updateGame_playing m currentTime draw2 g hp]
    unfold physicsTick beforeBricks
    rw [hpp]

theorem last_life_miss_witness :
    Playing 5000 lastLifeState ∧ lastLifeState.lives = 1 ∧
      (beforeMiss (fun _ => -1) lastLifeState).ball.y +
        (beforeMiss (fun _ => -1) lastLifeState).ball.size > 480 ∧
      (updateGame sampleLibm 5000 (fun _ => -1) lastLifeState).lives = 0 ∧
      (updateGame sampleLibm 5000 (fun _ => -1) lastLifeState).gameOver = true ∧
      (updateGame sampleLibm 5000 (fun _ => -1) lastLifeState).paddle.x =
        lastLifeState.paddle.x :=
  have hpl : Playing 5000 lastLifeState := by
    norm_num [Playing, elapsed, lastLifeState, missState, mainInit, initializeGame,
      startupGlobals]
  have hm : (beforeMiss (fun _ => -1) lastLifeState).ball.y +
      (beforeMiss (fun _ => -1) lastLifeState).ball.size > 480 := by
    norm_num [beforeMiss, wallStep, moveStep, launchStep, lastLifeState, missState, mainInit,
      initializeGame, startupGlobals]
  ⟨hpl, rfl, hm,
    (last_life_miss sampleLibm 5000 (fun _ => -1) lastLifeState hpl rfl hm).1,
    (last_life_miss sampleLibm 5000 (fun _ => -1) lastLifeState hpl rfl hm).2.1,
    (last_life_miss sampleLibm 5000 (fun _ => -1) lastLifeState hpl rfl hm).2.2.1⟩

/-! ## C10: the paddle bounce -/

/-- C11: the code does not keep the bounce angle within 60 degrees. In the
reachable state `edgeState` the next tick finds the ball at `x = 50` overlapping
the paddle at `x = 56` (width 100, ball size 15); `normalizedIntersect` is
`(56 + 50 - 50) / 50 = 1.12`, outside `[-1, 1]`, and the angle passed to `sin`
and `cos` is `1.12 * 60 = 67.2` degrees, above the 60 degrees that the comment
in the source and the claim give as its bound. -/
theorem edge_hit_angle :
    Reachable ({ sqrt := Real.sqrt, sin := Real.sin, cos := Real.cos, M_PI := Real.pi } : Libm ℝ)
        (edgeState : Game ℝ) ∧
      Playing 4120 (edgeState : Game ℝ) ∧
      paddleHit (beforePaddle (fun _ => 0) (edgeState : Game ℝ)) = true ∧
      (beforePaddle (fun _ => 0) (edgeState : Game ℝ)).paddle.width = 100 ∧
      (beforePaddle (fun _ => 0) (edgeState : Game ℝ)).ball.size = 15 ∧
      normalizedIntersect (beforePaddle (fun _ => 0) (edgeState : Game ℝ)) = 28 / 25 ∧
      ¬ (-1 ≤ normalizedIntersect (beforePaddle (fun _ => 0) (edgeState : Game ℝ)) ∧
        normalizedIntersect (beforePaddle (fun _ => 0) (edgeState : Game ℝ)) ≤ 1) ∧
      bounceAngle
          ({ sqrt := Real.sqrt, sin := Real.sin, cos := Real.cos, M_PI := Real.pi } : Libm ℝ)
          (beforePaddle (fun _ => 0) (edgeState : Game ℝ)) =
        28 / 25 * (60 * Real.pi / 180) ∧
      ¬ (bounceAngle
          ({ sqrt := Real.sqrt, sin := Real.sin, cos := Real.cos, M_PI := Real.pi } : Libm ℝ)
          (beforePaddle (fun _ => 0) (edgeState : Game ℝ)) ≤ 60 * Real.pi / 180) := by
  have hn : normalizedIntersect (beforePaddle (fun _ => 0) (edgeState : Game ℝ)) =
      28 / 25 := by
    norm_num [normalizedIntersect, beforePaddle, missStep, beforeMiss, wallStep, moveStep,
      launchStep, edgeState, mainInit, initializeGame, startupGlobals]
  have ha : bounceAngle
      ({ sqrt := Real.sqrt, sin := Real.sin, cos := Real.cos, M_PI := Real.pi } : Libm ℝ)
      (beforePaddle (fun _ => 0) (edgeState : Game ℝ)) =
      28 / 25 * (60 * Real.pi / 180) := by
    unfold bounceAngle
    rw [hn]
  refine ⟨edgeState_reachable _, ?_, ?_, ?_, ?_, hn, ?_, ha, ?_⟩
  · norm_num [Playing, elapsed, edgeState, mainInit, initializeGame, startupGlobals]
  · norm_num [paddleHit, checkCollision, beforePaddle, missStep, beforeMiss, wallStep,
      moveStep, launchStep, edgeState, mainInit, initializeGame, startupGlobals]
  · norm_num [beforePaddle, missStep, beforeMiss, wallStep, moveStep, launchStep, edgeState,
      mainInit, initializeGame, startupGlobals]
  · norm_num [beforePaddle, missStep, beforeMiss, wallStep, moveStep, launchStep, edgeState,
      mainInit, initializeGame, startupGlobals]
  · rw [hn]
    norm_num
  · rw [ha]
    have hpi := Real.pi_pos
    intro hle
    linarith

end Model

end Breakout
